import Mathlib

/-!
Verification development for the oh-my-creampi orchestration core.

The TypeScript sources under `.pi/extensions/oh-my-creampi/lib/` are shallowly
embedded here: classes become structures with explicit state passing, the
ambient clock (`Date.now()`) becomes an explicit `nowMs : Nat` argument per
call, JavaScript `Map` objects become association lists with JS `Map`
insertion-order semantics, and code that throws returns `Except`.
`crypto.randomUUID()` (used only to mint fresh ids) is modelled by a
per-state counter rendered as an injective string suffix, and
`crypto.createHash("sha256")` (a platform primitive, not repository code) is
modelled by an explicit `digest : String → String` parameter.
-/

namespace Creampi

/-! ## Association-list model of the JavaScript `Map`

`mapGet`, `mapSet`, `mapDelete` model `Map.get`, `Map.set`, `Map.delete`.
`Map.set` replaces the value in place when the key is present (keeping
insertion order) and appends otherwise; states built from the empty map
through these operations keep their keys pairwise distinct, matching the
JS `Map` guarantee. -/

def mapGet {α : Type} : List (String × α) → String → Option α
  | [], _ => none
  | (k', v) :: rest, k => if k' = k then some v else mapGet rest k

def mapSet {α : Type} : List (String × α) → String → α → List (String × α)
  | [], k, v => [(k, v)]
  | (k', v') :: rest, k, v =>
    if k' = k then (k, v) :: rest else (k', v') :: mapSet rest k v

def mapDelete {α : Type} : List (String × α) → String → List (String × α)
  | [], _ => []
  | (k', v') :: rest, k =>
    if k' = k then rest else (k', v') :: mapDelete rest k

def mapKeys {α : Type} (m : List (String × α)) : List String :=
  m.map Prod.fst

/-! ## JavaScript string helpers -/

/-- Models the JavaScript whitespace class used by `String.prototype.trim`
(the ASCII part; exotic Unicode space code points are not produced by any
caller in this codebase). -/
def jsIsSpaceChar (c : Char) : Bool :=
  c = ' ' || c = '\t' || c = '\n' || c = '\r' || c = '\x0b' || c = '\x0c'

/-- Models JavaScript `String.prototype.trim`: drop leading and trailing
whitespace. -/
def jsTrim (s : String) : String :=
  String.mk (((s.data.dropWhile jsIsSpaceChar).reverse.dropWhile jsIsSpaceChar).reverse)

/-- Models JavaScript `String.prototype.toLowerCase` (ASCII range). -/
def jsToLower (s : String) : String :=
  String.mk (s.data.map Char.toLower)

/-- Models `createId` from `lib/util.ts`:
`` `${prefix}_${randomUUID().slice(0, 8)}` ``.  The random 8-character UUID
slice is replaced by an injective counter-indexed suffix; the counter is
threaded through the embedded state. -/
def createId (pre : String) (n : Nat) : String :=
  pre ++ "_" ++ String.mk (List.replicate n 'x')

/-- Whether a string carries the `grant_` id prefix; task ids supplied by
callers are assumed not to collide with minted grant ids. -/
def hasGrantPre (t : String) : Bool :=
  "grant_".data.isPrefixOf t.data

/-! ## Admission Controller (`lib/primitives/admission.ts` region of
`idempotency.ts` sources: `AdmissionController`) -/

structure AdmissionGrant where
  grantId : String
  taskId : String
  grantedAt : Nat
deriving Repr, DecidableEq

inductive AdmissionDecision where
  | allowed (grant : AdmissionGrant)
  | rejected (reason : String)
deriving Repr, DecidableEq

def AdmissionDecision.isAllowed : AdmissionDecision → Bool
  | .allowed _ => true
  | .rejected _ => false

structure AdmissionController where
  maxConcurrency : Nat
  runningByTask : List (String × AdmissionGrant)
  taskByGrant : List (String × String)
  nextId : Nat
deriving Repr, DecidableEq

/-- Models `new AdmissionController(maxConcurrency)`:
`Math.max(1, Math.floor(maxConcurrency))` (the argument is an integer here,
so `floor` is the identity). -/
def mkAdmissionController (maxConcurrency : Nat) : AdmissionController :=
  { maxConcurrency := max 1 maxConcurrency
    runningByTask := []
    taskByGrant := []
    nextId := 0 }

/-- The `over capacity (${size}/${max})` rejection reason string. -/
def overCapacityReason (occupancy capacity : Nat) : String :=
  "over capacity (" ++ toString occupancy ++ "/" ++ toString capacity ++ ")"

def AdmissionController.admitTask (s : AdmissionController) (nowMs : Nat)
    (taskId : String) : AdmissionDecision × AdmissionController :=
  let normalizedTaskId := jsTrim taskId
  if normalizedTaskId = "" then
    (.rejected "taskId is required", s)
  else
    match mapGet s.runningByTask normalizedTaskId with
    | some existing => (.allowed existing, s)
    | none =>
      if s.maxConcurrency ≤ s.runningByTask.length then
        (.rejected (overCapacityReason s.runningByTask.length s.maxConcurrency), s)
      else
        let grant : AdmissionGrant :=
          { grantId := createId "grant" s.nextId
            taskId := normalizedTaskId
            grantedAt := nowMs }
        (.allowed grant,
          { s with
            runningByTask := mapSet s.runningByTask normalizedTaskId grant
            taskByGrant := mapSet s.taskByGrant grant.grantId normalizedTaskId
            nextId := s.nextId + 1 })

def AdmissionController.release (s : AdmissionController)
    (grantOrTaskId : String) : AdmissionController :=
  let normalized := jsTrim grantOrTaskId
  if normalized = "" then s
  else
    match mapGet s.taskByGrant normalized with
    | some taskIdFromGrant =>
      { s with
        taskByGrant := mapDelete s.taskByGrant normalized
        runningByTask := mapDelete s.runningByTask taskIdFromGrant }
    | none =>
      match mapGet s.runningByTask normalized with
      | none => s
      | some existing =>
        { s with
          runningByTask := mapDelete s.runningByTask normalized
          taskByGrant := mapDelete s.taskByGrant existing.grantId }

/-- Admits a list of task ids in order, reporting whether every admission
returned `allowed` alongside the final controller state. -/
def admitAll (nowMs : Nat) (s : AdmissionController) :
    List String → Bool × AdmissionController
  | [] => (true, s)
  | t :: ts =>
    let r := s.admitTask nowMs t
    let rest := admitAll nowMs r.2 ts
    (r.1.isAllowed && rest.1, rest.2)

example :
    ((mkAdmissionController 2).admitTask 0 "a").1 =
      .allowed { grantId := "grant_", taskId := "a", grantedAt := 0 } := by
  decide

example :
    (admitAll 0 (mkAdmissionController 2) ["a", "b"]).1 = true := by
  decide

example :
    ((admitAll 0 (mkAdmissionController 2) ["a", "b"]).2.admitTask 0 "c").1 =
      .rejected "over capacity (2/2)" := by
  decide

/-! ## Lemmas about the map model -/

theorem mapGet_set_self {α : Type} (m : List (String × α)) (k : String) (v : α) :
    mapGet (mapSet m k v) k = some v := by
  induction m with
  | nil => simp [mapSet, mapGet]
  | cons p rest ih =>
    obtain ⟨k', v'⟩ := p
    by_cases h : k' = k <;> simp [mapSet, mapGet, h, ih]

theorem mapGet_set_ne {α : Type} {m : List (String × α)} {k k' : String} (v : α)
    (h : k' ≠ k) : mapGet (mapSet m k v) k' = mapGet m k' := by
  have h' : k ≠ k' := Ne.symm h
  induction m with
  | nil => simp [mapSet, mapGet, h']
  | cons p rest ih =>
    obtain ⟨k0, v0⟩ := p
    by_cases h0 : k0 = k
    · subst h0
      simp [mapSet, mapGet, h']
    · simp [mapSet, mapGet, h0, ih]

theorem mapSet_of_not_mem {α : Type} {m : List (String × α)} {k : String} (v : α)
    (h : k ∉ mapKeys m) : mapSet m k v = m ++ [(k, v)] := by
  induction m with
  | nil => simp [mapSet]
  | cons p rest ih =>
    obtain ⟨k0, v0⟩ := p
    simp only [mapKeys, List.map_cons, List.mem_cons, not_or] at h
    simp [mapSet, Ne.symm h.1, ih (by simpa [mapKeys] using h.2)]

theorem mapGet_eq_none_of_not_mem {α : Type} {m : List (String × α)} {k : String}
    (h : k ∉ mapKeys m) : mapGet m k = none := by
  induction m with
  | nil => simp [mapGet]
  | cons p rest ih =>
    obtain ⟨k0, v0⟩ := p
    simp only [mapKeys, List.map_cons, List.mem_cons, not_or] at h
    simp [mapGet, Ne.symm h.1, ih (by simpa [mapKeys] using h.2)]

theorem mem_of_mapGet_eq_some {α : Type} {m : List (String × α)} {k : String} {v : α}
    (h : mapGet m k = some v) : (k, v) ∈ m := by
  induction m with
  | nil => simp [mapGet] at h
  | cons p rest ih =>
    obtain ⟨k0, v0⟩ := p
    by_cases h0 : k0 = k
    · subst h0
      simp [mapGet] at h
      simp [h]
    · simp [mapGet, h0] at h
      exact List.mem_cons_of_mem _ (ih h)

theorem mapGet_eq_some_of_mem_nodup {α : Type} {m : List (String × α)} {k : String}
    {v : α} (hnd : (mapKeys m).Nodup) (hmem : (k, v) ∈ m) : mapGet m k = some v := by
  induction m with
  | nil => simp at hmem
  | cons p rest ih =>
    obtain ⟨k0, v0⟩ := p
    simp only [mapKeys, List.map_cons, List.nodup_cons] at hnd
    rcases List.mem_cons.1 hmem with h | h
    · cases h
      simp [mapGet]
    · have hk : k0 ≠ k := by
        intro e
        subst e
        exact hnd.1 (by simpa [mapKeys] using List.mem_map_of_mem Prod.fst h)
      simp [mapGet, hk]
      exact ih (by simpa [mapKeys] using hnd.2) h

theorem mapDelete_sublist {α : Type} (m : List (String × α)) (k : String) :
    List.Sublist (mapDelete m k) m := by
  induction m with
  | nil => simp [mapDelete]
  | cons p rest ih =>
    obtain ⟨k0, v0⟩ := p
    by_cases h0 : k0 = k
    · rw [show mapDelete ((k0, v0) :: rest) k = rest from by simp [mapDelete, h0]]
      exact (List.Sublist.refl rest).cons _
    · rw [show mapDelete ((k0, v0) :: rest) k = (k0, v0) :: mapDelete rest k from by
        simp [mapDelete, h0]]
      exact ih.cons₂ (k0, v0)

theorem mapKeys_delete {α : Type} (m : List (String × α)) (k : String) :
    mapKeys (mapDelete m k) = (mapKeys m).erase k := by
  induction m with
  | nil => simp [mapDelete, mapKeys]
  | cons p rest ih =>
    obtain ⟨k0, v0⟩ := p
    by_cases h0 : k0 = k
    · subst h0
      rw [show mapDelete ((k0, v0) :: rest) k0 = rest from by simp [mapDelete]]
      rw [show mapKeys ((k0, v0) :: rest) = k0 :: mapKeys rest from rfl]
      rw [List.erase_cons_head]
    · rw [show mapDelete ((k0, v0) :: rest) k = (k0, v0) :: mapDelete rest k from by
        simp [mapDelete, h0]]
      rw [show mapKeys ((k0, v0) :: mapDelete rest k) =
          k0 :: mapKeys (mapDelete rest k) from rfl]
      rw [show mapKeys ((k0, v0) :: rest) = k0 :: mapKeys rest from rfl]
      rw [List.erase_cons_tail (by simpa using h0), ih]

/-! ## Lemmas about `jsTrim` and `createId` -/

theorem dropWhile_eq_self_of_none {p : Char → Bool} {l : List Char}
    (h : ∀ c ∈ l, p c = false) : l.dropWhile p = l := by
  cases l with
  | nil => simp
  | cons c rest => simp [List.dropWhile_cons, h c (by simp)]

theorem jsTrim_eq_self_of_no_space {s : String}
    (h : ∀ c ∈ s.data, jsIsSpaceChar c = false) : jsTrim s = s := by
  have h1 : s.data.dropWhile jsIsSpaceChar = s.data := dropWhile_eq_self_of_none h
  have h2 : s.data.reverse.dropWhile jsIsSpaceChar = s.data.reverse :=
    dropWhile_eq_self_of_none (fun c hc => h c (by simpa using hc))
  apply String.ext
  show ((s.data.dropWhile jsIsSpaceChar).reverse.dropWhile jsIsSpaceChar).reverse = s.data
  rw [h1, h2, List.reverse_reverse]

theorem jsTrim_ne_empty_of_head {s : String} {c : Char} {rest : List Char}
    (hd : s.data = c :: rest) (hc : jsIsSpaceChar c = false) : jsTrim s ≠ "" := by
  intro h
  have hdata : (jsTrim s).data = "".data := congrArg String.data h
  have hmem : c ∈ s.data.dropWhile jsIsSpaceChar := by
    rw [hd, List.dropWhile_cons, hc]
    simp
  have : ((s.data.dropWhile jsIsSpaceChar).reverse.dropWhile jsIsSpaceChar) = [] := by
    simpa [jsTrim] using hdata
  rw [List.dropWhile_eq_nil_iff] at this
  have := this c (by simpa using hmem)
  rw [hc] at this
  exact Bool.noConfusion this

theorem createId_grant_data (n : Nat) :
    (createId "grant" n).data = "grant_".data ++ List.replicate n 'x' := by
  simp [createId, String.data_append]

theorem createId_inj {pre : String} {a b : Nat}
    (h : createId pre a = createId pre b) : a = b := by
  have hd := congrArg String.data h
  simp only [createId, String.data_append] at hd
  have : List.replicate a 'x' = List.replicate b 'x' := by
    have hs : (String.mk (List.replicate a 'x')).data =
        (String.mk (List.replicate b 'x')).data := by
      exact List.append_cancel_left hd
    simpa using hs
  have := congrArg List.length this
  simpa using this

theorem hasGrantPre_createId (n : Nat) : hasGrantPre (createId "grant" n) = true := by
  rw [hasGrantPre, createId_grant_data]
  exact List.isPrefixOf_iff_prefix.2 (List.prefix_append _ _)

theorem createId_grant_no_space (n : Nat) :
    ∀ c ∈ (createId "grant" n).data, jsIsSpaceChar c = false := by
  intro c hc
  rw [createId_grant_data] at hc
  rcases List.mem_append.1 hc with h | h
  · rw [show "grant_".data = ['g', 'r', 'a', 'n', 't', '_'] from by decide] at h
    simp only [List.mem_cons, List.not_mem_nil, or_false] at h
    rcases h with rfl | rfl | rfl | rfl | rfl | rfl <;> decide
  · rw [List.eq_of_mem_replicate h]
    decide

theorem jsTrim_createId_grant (n : Nat) :
    jsTrim (createId "grant" n) = createId "grant" n :=
  jsTrim_eq_self_of_no_space (createId_grant_no_space n)

theorem createId_grant_ne_empty (n : Nat) : createId "grant" n ≠ "" := by
  intro h
  have := congrArg String.data h
  rw [createId_grant_data] at this
  simp at this

theorem mapGet_isSome_of_mem {α : Type} {m : List (String × α)} {k : String}
    (h : k ∈ mapKeys m) : ∃ v, mapGet m k = some v := by
  induction m with
  | nil => simp [mapKeys] at h
  | cons p rest ih =>
    obtain ⟨k0, v0⟩ := p
    by_cases h0 : k0 = k
    · exact ⟨v0, by simp [mapGet, h0]⟩
    · have hmem : k = k0 ∨ k ∈ mapKeys rest := by
        rw [show mapKeys ((k0, v0) :: rest) = k0 :: mapKeys rest from rfl] at h
        exact List.mem_cons.1 h
      have : k ∈ mapKeys rest := by
        rcases hmem with h1 | h1
        · exact absurd h1.symm h0
        · exact h1
      obtain ⟨v, hv⟩ := ih this
      exact ⟨v, by simp [mapGet, h0, hv]⟩

/-! ## The admission controller's inductive invariant -/

/-- Inductive invariant of `AdmissionController`: the two maps mirror each
other, stored keys are normalized non-empty task ids that do not collide with
minted grant ids, and grant ids are pairwise distinct and below the freshness
counter. -/
structure AdmInv (s : AdmissionController) : Prop where
  nodupKeys : (mapKeys s.runningByTask).Nodup
  grantMap : s.taskByGrant = s.runningByTask.map (fun p => (p.2.grantId, p.1))
  entries : ∀ p ∈ s.runningByTask,
    p.2.taskId = p.1 ∧ jsTrim p.1 = p.1 ∧ p.1 ≠ "" ∧ hasGrantPre p.1 = false ∧
      ∃ m, m < s.nextId ∧ p.2.grantId = createId "grant" m
  nodupGrants : (s.runningByTask.map (fun p => p.2.grantId)).Nodup

theorem admInv_mk (c : Nat) : AdmInv (mkAdmissionController c) := by
  refine ⟨?_, ?_, ?_, ?_⟩ <;> simp [mkAdmissionController, mapKeys]

/-- Under the invariant, a task id without the grant prefix is not a key of
`taskByGrant`. -/
theorem mapGet_taskByGrant_none {s : AdmissionController} (hinv : AdmInv s)
    {t : String} (hgp : hasGrantPre t = false) : mapGet s.taskByGrant t = none := by
  apply mapGet_eq_none_of_not_mem
  rw [hinv.grantMap]
  intro hmem
  simp only [mapKeys, List.map_map, List.mem_map] at hmem
  obtain ⟨p, hp, hpt⟩ := hmem
  obtain ⟨-, -, -, -, m, -, hgid⟩ := hinv.entries p hp
  have : hasGrantPre t = true := by
    have : p.2.grantId = t := hpt
    rw [← this, hgid]
    exact hasGrantPre_createId m
  rw [hgp] at this
  exact Bool.noConfusion this

theorem mapGet_grantList {rb : List (String × AdmissionGrant)} {j : String}
    {g : AdmissionGrant}
    (hnd : (rb.map (fun p => p.2.grantId)).Nodup) (hmem : (j, g) ∈ rb) :
    mapGet (rb.map (fun p => (p.2.grantId, p.1))) g.grantId = some j := by
  induction rb with
  | nil => simp at hmem
  | cons p rest ih =>
    obtain ⟨k0, v0⟩ := p
    simp only [List.map_cons, List.nodup_cons] at hnd
    rcases List.mem_cons.1 hmem with h | h
    · cases h
      simp [mapGet]
    · have hne : v0.grantId ≠ g.grantId := by
        intro e
        exact hnd.1 (e ▸ List.mem_map_of_mem (fun p => p.2.grantId) h)
      simp only [List.map_cons, mapGet, hne, if_neg hne]
      exact ih hnd.2 h

theorem mapDelete_grantList {rb : List (String × AdmissionGrant)} {j : String}
    {g : AdmissionGrant}
    (hndg : (rb.map (fun p => p.2.grantId)).Nodup)
    (hget : mapGet rb j = some g) :
    mapDelete (rb.map (fun p => (p.2.grantId, p.1))) g.grantId =
      (mapDelete rb j).map (fun p => (p.2.grantId, p.1)) := by
  induction rb with
  | nil => simp [mapGet] at hget
  | cons p rest ih =>
    obtain ⟨k0, v0⟩ := p
    simp only [List.map_cons, List.nodup_cons] at hndg
    by_cases h0 : k0 = j
    · have hg : v0 = g := by simpa [mapGet, h0] using hget
      subst hg
      rw [show mapDelete ((k0, v0) :: rest) j = rest from by simp [mapDelete, h0]]
      simp [mapDelete]
    · have hget' : mapGet rest j = some g := by simpa [mapGet, h0] using hget
      have hmem : (j, g) ∈ rest := mem_of_mapGet_eq_some hget'
      have hne : v0.grantId ≠ g.grantId := by
        intro e
        exact hndg.1 (e ▸ List.mem_map_of_mem (fun p => p.2.grantId) hmem)
      rw [show mapDelete ((k0, v0) :: rest) j = (k0, v0) :: mapDelete rest j from by
        simp [mapDelete, h0]]
      simp only [List.map_cons]
      rw [show mapDelete ((v0.grantId, k0) :: rest.map (fun p => (p.2.grantId, p.1)))
            g.grantId =
          (v0.grantId, k0) :: mapDelete (rest.map (fun p => (p.2.grantId, p.1)))
            g.grantId from by simp [mapDelete, hne]]
      rw [ih hndg.2 hget']

/-- Characterization of a fresh admission: a normalized, unknown task id with
capacity available is `allowed` with a newly minted grant, and the invariant
is preserved. -/
theorem admitTask_fresh {s : AdmissionController} {t : String} (nowMs : Nat)
    (hinv : AdmInv s)
    (ht : jsTrim t = t) (hne : t ≠ "") (hgp : hasGrantPre t = false)
    (hnotmem : t ∉ mapKeys s.runningByTask)
    (hcap : s.runningByTask.length < s.maxConcurrency) :
    s.admitTask nowMs t =
      (.allowed
        { grantId := createId "grant" s.nextId, taskId := t, grantedAt := nowMs },
        { s with
          runningByTask := s.runningByTask ++
            [(t, { grantId := createId "grant" s.nextId, taskId := t,
                   grantedAt := nowMs })]
          taskByGrant := s.taskByGrant ++ [(createId "grant" s.nextId, t)]
          nextId := s.nextId + 1 }) ∧
    AdmInv { s with
          runningByTask := s.runningByTask ++
            [(t, { grantId := createId "grant" s.nextId, taskId := t,
                   grantedAt := nowMs })]
          taskByGrant := s.taskByGrant ++ [(createId "grant" s.nextId, t)]
          nextId := s.nextId + 1 } := by
  have hget : mapGet s.runningByTask t = none := mapGet_eq_none_of_not_mem hnotmem
  have hgidfresh : createId "grant" s.nextId ∉ mapKeys s.taskByGrant := by
    rw [hinv.grantMap]
    intro hmem
    simp only [mapKeys, List.map_map, List.mem_map] at hmem
    obtain ⟨p, hp, hpt⟩ := hmem
    obtain ⟨-, -, -, -, m, hm, hgid⟩ := hinv.entries p hp
    have : createId "grant" m = createId "grant" s.nextId := by
      rw [← hgid]; exact hpt
    exact absurd (createId_inj this) (Nat.ne_of_lt hm)
  constructor
  · simp only [AdmissionController.admitTask, ht, if_neg hne, hget,
      Nat.not_le.2 hcap, if_neg (Nat.not_le.2 hcap).elim]
    rw [if_neg (by simpa using Nat.not_le.2 hcap)]
    rw [mapSet_of_not_mem _ hnotmem, mapSet_of_not_mem _ hgidfresh]
  · constructor
    · simpa [mapKeys, List.nodup_append] using ⟨hinv.nodupKeys, by simpa [mapKeys] using hnotmem⟩
    · simp only [List.map_append, List.map_cons, List.map_nil]
      rw [hinv.grantMap]
    · intro p hp
      rcases List.mem_append.1 hp with h | h
      · obtain ⟨h1, h2, h3, h4, m, hm, hgid⟩ := hinv.entries p h
        exact ⟨h1, h2, h3, h4, m, Nat.lt_succ_of_lt hm, hgid⟩
      · simp only [List.mem_singleton] at h
        subst h
        exact ⟨rfl, ht, hne, hgp, s.nextId, Nat.lt_succ_self _, rfl⟩
    · rw [List.map_append]
      simp only [List.map_cons, List.map_nil]
      rw [List.nodup_append]
      refine ⟨hinv.nodupGrants, List.nodup_singleton _, ?_⟩
      intro gid hgid hgid'
      simp only [List.mem_singleton] at hgid'
      subst hgid'
      simp only [List.mem_map] at hgid
      obtain ⟨p, hp, hpt⟩ := hgid
      obtain ⟨-, -, -, -, m, hm, hg⟩ := hinv.entries p hp
      have : createId "grant" m = createId "grant" s.nextId := by rw [← hg]; exact hpt
      exact absurd (createId_inj this) (Nat.ne_of_lt hm)

/-- Admitting a list of distinct, normalized, unknown task ids that fits in
the remaining capacity succeeds throughout, preserves the invariant, and
appends exactly those keys. -/
theorem admitAll_spec (nowMs : Nat) :
    ∀ (ids : List String) (s : AdmissionController),
      AdmInv s →
      (∀ t ∈ ids, jsTrim t = t ∧ t ≠ "" ∧ hasGrantPre t = false) →
      ids.Nodup →
      (∀ t ∈ ids, t ∉ mapKeys s.runningByTask) →
      s.runningByTask.length + ids.length ≤ s.maxConcurrency →
      (admitAll nowMs s ids).1 = true ∧
      AdmInv (admitAll nowMs s ids).2 ∧
      mapKeys (admitAll nowMs s ids).2.runningByTask =
        mapKeys s.runningByTask ++ ids ∧
      (admitAll nowMs s ids).2.maxConcurrency = s.maxConcurrency := by
  intro ids
  induction ids with
  | nil =>
    intro s hinv _ _ _ _
    exact ⟨rfl, hinv, by simp [admitAll], rfl⟩
  | cons t ts ih =>
    intro s hinv hprops hnodup hfresh hcap
    obtain ⟨ht, hne, hgp⟩ := hprops t (by simp)
    have hnotmem : t ∉ mapKeys s.runningByTask := hfresh t (by simp)
    have hlt : s.runningByTask.length < s.maxConcurrency := by
      have := hcap
      simp only [List.length_cons] at this
      omega
    obtain ⟨hstep, hinv'⟩ := admitTask_fresh nowMs hinv ht hne hgp hnotmem hlt
    have hkeys' :
        mapKeys (s.admitTask nowMs t).2.runningByTask =
          mapKeys s.runningByTask ++ [t] := by
      rw [hstep]
      simp [mapKeys]
    have hlen' : (s.admitTask nowMs t).2.runningByTask.length =
        s.runningByTask.length + 1 := by
      have := congrArg List.length hkeys'
      simpa [mapKeys] using this
    have hmax' : (s.admitTask nowMs t).2.maxConcurrency = s.maxConcurrency := by
      rw [hstep]
    have hinv2 : AdmInv (s.admitTask nowMs t).2 := by rw [hstep]; exact hinv'
    have hrest := ih (s.admitTask nowMs t).2 hinv2
      (fun u hu => hprops u (by simp [hu]))
      (List.Nodup.of_cons hnodup)
      (by
        intro u hu
        rw [hkeys']
        intro hmem
        rcases List.mem_append.1 hmem with h | h
        · exact hfresh u (by simp [hu]) h
        · simp only [List.mem_singleton] at h
          subst h
          exact (List.nodup_cons.1 hnodup).1 hu)
      (by
        rw [hlen', hmax']
        simp only [List.length_cons] at hcap
        omega)
    have heq : admitAll nowMs s (t :: ts) =
        ((s.admitTask nowMs t).1.isAllowed &&
          (admitAll nowMs (s.admitTask nowMs t).2 ts).1,
         (admitAll nowMs (s.admitTask nowMs t).2 ts).2) := rfl
    have hd : (s.admitTask nowMs t).1 = .allowed
        { grantId := createId "grant" s.nextId, taskId := t, grantedAt := nowMs } := by
      rw [hstep]
    refine ⟨?_, ?_, ?_, ?_⟩
    · rw [heq]
      show ((s.admitTask nowMs t).1.isAllowed &&
        (admitAll nowMs (s.admitTask nowMs t).2 ts).1) = true
      rw [hd, hrest.1]
      rfl
    · rw [show (admitAll nowMs s (t :: ts)).2 =
          (admitAll nowMs (s.admitTask nowMs t).2 ts).2 from rfl]
      exact hrest.2.1
    · rw [show (admitAll nowMs s (t :: ts)).2 =
          (admitAll nowMs (s.admitTask nowMs t).2 ts).2 from rfl]
      rw [hrest.2.2.1, hkeys']
      simp
    · rw [show (admitAll nowMs s (t :: ts)).2 =
          (admitAll nowMs (s.admitTask nowMs t).2 ts).2 from rfl]
      rw [hrest.2.2.2, hmax']

/-- Characterization of `release` under the invariant: releasing either the
task id or the grant id of a held grant removes exactly that entry from both
maps, and the invariant is preserved. -/
theorem release_target {s : AdmissionController} {j : String} {g : AdmissionGrant}
    (hinv : AdmInv s) (hget : mapGet s.runningByTask j = some g)
    {x : String} (hx : x = j ∨ x = g.grantId) :
    s.release x =
      { s with
        runningByTask := mapDelete s.runningByTask j
        taskByGrant := mapDelete s.taskByGrant g.grantId } ∧
    AdmInv { s with
        runningByTask := mapDelete s.runningByTask j
        taskByGrant := mapDelete s.taskByGrant g.grantId } := by
  have hmem : (j, g) ∈ s.runningByTask := mem_of_mapGet_eq_some hget
  obtain ⟨htask, htrim, hjne, hjgp, m, hm, hgid⟩ := hinv.entries (j, g) hmem
  have hinvDel : AdmInv { s with
      runningByTask := mapDelete s.runningByTask j
      taskByGrant := mapDelete s.taskByGrant g.grantId } := by
    have hsub := mapDelete_sublist s.runningByTask j
    constructor
    · rw [mapKeys_delete]
      exact hinv.nodupKeys.erase j
    · rw [hinv.grantMap]
      exact mapDelete_grantList hinv.nodupGrants hget
    · intro p hp
      exact hinv.entries p (hsub.mem hp)
    · exact (hsub.map (fun p => p.2.grantId)).nodup hinv.nodupGrants
  rcases hx with rfl | rfl
  · have hnogrant : mapGet s.taskByGrant x = none := mapGet_taskByGrant_none hinv hjgp
    constructor
    · simp only [AdmissionController.release, htrim, if_neg hjne, hnogrant, hget]
    · exact hinvDel
  · have hxtrim : jsTrim g.grantId = g.grantId := by
      rw [hgid]; exact jsTrim_createId_grant m
    have hxne : g.grantId ≠ "" := by rw [hgid]; exact createId_grant_ne_empty m
    have hgrant : mapGet s.taskByGrant g.grantId = some j := by
      rw [hinv.grantMap]
      exact mapGet_grantList hinv.nodupGrants hmem
    constructor
    · simp only [AdmissionController.release, hxtrim, if_neg hxne, hgrant]
    · exact hinvDel

/-- A task id already holding a grant is re-admitted with that same grant and
no state change. -/
theorem admitTask_existing {s : AdmissionController} {t : String} {g : AdmissionGrant}
    (nowMs : Nat) (hne : ¬ jsTrim t = "")
    (hget : mapGet s.runningByTask (jsTrim t) = some g) :
    s.admitTask nowMs t = (.allowed g, s) := by
  simp only [AdmissionController.admitTask]
  rw [if_neg hne, hget]

/-- Re-admitting a task id that was just granted returns the identical grant
and leaves the controller unchanged. -/
theorem admitTask_idem {s s1 : AdmissionController} {n1 n2 : Nat} {t : String}
    {g : AdmissionGrant} (h : s.admitTask n1 t = (.allowed g, s1)) :
    s1.admitTask n2 t = (.allowed g, s1) := by
  simp only [AdmissionController.admitTask] at h
  split at h
  · simp at h
  · next hcond =>
    split at h
    · next ex heq =>
      injection h with h1 h2
      injection h1 with hg
      subst hg
      subst h2
      exact admitTask_existing n2 hcond heq
    · next heq =>
      split at h
      · simp at h
      · next hcap =>
        injection h with h1 h2
        injection h1 with hg
        subst hg
        subst h2
        exact admitTask_existing n2 hcond (mapGet_set_self _ _ _)

/-- A normalized unknown task id is rejected with the over-capacity reason
when occupancy has reached capacity, and the controller is unchanged. -/
theorem admitTask_full {s : AdmissionController} {t : String} (nowMs : Nat)
    (ht : jsTrim t = t) (hne : t ≠ "")
    (hget : mapGet s.runningByTask t = none)
    (hcap : s.maxConcurrency ≤ s.runningByTask.length) :
    s.admitTask nowMs t =
      (.rejected (overCapacityReason s.runningByTask.length s.maxConcurrency), s) := by
  simp only [AdmissionController.admitTask, ht]
  rw [if_neg hne, hget, if_pos hcap]

/-- C1: for every capacity `c ≥ 1`, admitting the same non-empty task id
twice returns the identical existing grant with no state change (no second
slot consumed); after admitting `c` distinct task ids into a fresh
controller, a further distinct id is rejected with the over-capacity reason
reporting occupancy and capacity; every admitted id holds a grant; and after
releasing any one held grant — by grant id or by task id — exactly one more
distinct task id can be admitted (a second one is rejected again). -/
theorem c1_admission_controller
    (c : Nat) (ids : List String) (t1 t2 : String)
    (hc : 1 ≤ c) (hlen : ids.length = c)
    (hids : ∀ t ∈ ids, jsTrim t = t ∧ t ≠ "" ∧ hasGrantPre t = false)
    (hnodup : ids.Nodup)
    (ht1 : jsTrim t1 = t1 ∧ t1 ≠ "" ∧ hasGrantPre t1 = false ∧ t1 ∉ ids)
    (ht2 : jsTrim t2 = t2 ∧ t2 ≠ "" ∧ hasGrantPre t2 = false ∧ t2 ∉ ids ∧ t2 ≠ t1) :
    (∀ (s s1 : AdmissionController) (n1 n2 : Nat) (t : String) (g : AdmissionGrant),
        s.admitTask n1 t = (.allowed g, s1) → s1.admitTask n2 t = (.allowed g, s1)) ∧
    (admitAll 0 (mkAdmissionController c) ids).1 = true ∧
    ((admitAll 0 (mkAdmissionController c) ids).2.admitTask 0 t1).1 =
      .rejected (overCapacityReason c c) ∧
    (∀ j ∈ ids, ∃ g,
      mapGet (admitAll 0 (mkAdmissionController c) ids).2.runningByTask j = some g) ∧
    (∀ j g,
      mapGet (admitAll 0 (mkAdmissionController c) ids).2.runningByTask j = some g →
      ∀ x, x = j ∨ x = g.grantId →
        ∃ g1 s3,
          ((admitAll 0 (mkAdmissionController c) ids).2.release x).admitTask 0 t1 =
            (.allowed g1, s3) ∧
          (s3.admitTask 0 t2).1 = .rejected (overCapacityReason c c)) := by
  obtain ⟨ht1trim, ht1ne, ht1gp, ht1mem⟩ := ht1
  obtain ⟨ht2trim, ht2ne, ht2gp, ht2mem, ht2ne1⟩ := ht2
  have hmaxmk : (mkAdmissionController c).maxConcurrency = c := by
    simp [mkAdmissionController, Nat.max_eq_right hc]
  obtain ⟨hallok, hinv1, hkeys1, hmax1⟩ :=
    admitAll_spec 0 ids (mkAdmissionController c) (admInv_mk c) hids hnodup
      (by intro t ht; simp [mkAdmissionController, mapKeys])
      (by simp [mkAdmissionController, hlen, Nat.max_eq_right hc])
  have hkeys1' : mapKeys (admitAll 0 (mkAdmissionController c) ids).2.runningByTask
      = ids := by
    rw [hkeys1]
    simp [mkAdmissionController, mapKeys]
  have hlen1 : (admitAll 0 (mkAdmissionController c) ids).2.runningByTask.length
      = c := by
    have := congrArg List.length hkeys1'
    simpa [mapKeys, hlen] using this
  have hmax1' : (admitAll 0 (mkAdmissionController c) ids).2.maxConcurrency = c := by
    rw [hmax1, hmaxmk]
  refine ⟨fun s s1 n1 n2 t g h => admitTask_idem h, hallok, ?_, ?_, ?_⟩
  · have hnm : t1 ∉ mapKeys (admitAll 0 (mkAdmissionController c) ids).2.runningByTask := by
      rw [hkeys1']; exact ht1mem
    have := admitTask_full 0 ht1trim ht1ne (mapGet_eq_none_of_not_mem hnm)
      (by rw [hlen1, hmax1'])
    have h1 := congrArg Prod.fst this
    rw [hlen1, hmax1'] at h1
    exact h1
  · intro j hj
    exact mapGet_isSome_of_mem (by rw [hkeys1']; exact hj)
  · intro j g hget x hx
    obtain ⟨hrel, hinv2⟩ := release_target hinv1 hget hx
    have hjmem : j ∈ ids := by
      rw [← hkeys1']
      exact List.mem_map_of_mem Prod.fst (mem_of_mapGet_eq_some hget)
    have hinv2' : AdmInv ((admitAll 0 (mkAdmissionController c) ids).2.release x) := by
      rw [hrel]; exact hinv2
    have hkeys2 : mapKeys
        ((admitAll 0 (mkAdmissionController c) ids).2.release x).runningByTask =
        ids.erase j := by
      rw [hrel]
      show mapKeys (mapDelete (admitAll 0 (mkAdmissionController c) ids).2.runningByTask j)
          = ids.erase j
      rw [mapKeys_delete, hkeys1']
    have hlen2 : ((admitAll 0 (mkAdmissionController c) ids).2.release x).runningByTask.length
        = c - 1 := by
      have := congrArg List.length hkeys2
      rw [List.length_erase_of_mem hjmem, hlen] at this
      simpa [mapKeys] using this
    have hmax2 : ((admitAll 0 (mkAdmissionController c) ids).2.release x).maxConcurrency
        = c := by
      rw [hrel]; exact hmax1'
    have hnm1 : t1 ∉ mapKeys
        ((admitAll 0 (mkAdmissionController c) ids).2.release x).runningByTask := by
      rw [hkeys2]
      intro hmem
      exact ht1mem (List.mem_of_mem_erase hmem)
    have hlt : ((admitAll 0 (mkAdmissionController c) ids).2.release x).runningByTask.length
        < ((admitAll 0 (mkAdmissionController c) ids).2.release x).maxConcurrency := by
      rw [hlen2, hmax2]
      omega
    obtain ⟨hstep3, hinv3⟩ := admitTask_fresh 0 hinv2' ht1trim ht1ne ht1gp hnm1 hlt
    refine ⟨⟨createId "grant" ((admitAll 0 (mkAdmissionController c) ids).2.release x).nextId, t1, 0⟩,
      (((admitAll 0 (mkAdmissionController c) ids).2.release x).admitTask 0 t1).2,
      ?_, ?_⟩
    · rw [hstep3]
    have hkeys3 : mapKeys
        (((admitAll 0 (mkAdmissionController c) ids).2.release x).admitTask 0 t1).2.runningByTask
        = ids.erase j ++ [t1] := by
      rw [hstep3]
      show mapKeys
          (((admitAll 0 (mkAdmissionController c) ids).2.release x).runningByTask ++ _)
          = ids.erase j ++ [t1]
      rw [show ∀ (m : List (String × AdmissionGrant)) (p : String × AdmissionGrant),
          mapKeys (m ++ [p]) = mapKeys m ++ [p.1] from fun m p => by simp [mapKeys]]
      rw [hkeys2]
    have hlen3 : (((admitAll 0 (mkAdmissionController c) ids).2.release x).admitTask 0 t1).2.runningByTask.length
        = c := by
      have := congrArg List.length hkeys3
      rw [List.length_append, List.length_erase_of_mem hjmem, hlen] at this
      have h2 : (((admitAll 0 (mkAdmissionController c) ids).2.release x).admitTask 0 t1).2.runningByTask.length
          = c - 1 + 1 := by simpa [mapKeys] using this
      rw [h2]
      omega
    have hmax3 : (((admitAll 0 (mkAdmissionController c) ids).2.release x).admitTask 0 t1).2.maxConcurrency
        = c := by
      rw [hstep3]
      exact hmax2
    have hnm2 : t2 ∉ mapKeys
        (((admitAll 0 (mkAdmissionController c) ids).2.release x).admitTask 0 t1).2.runningByTask := by
      rw [hkeys3]
      intro hmem
      rcases List.mem_append.1 hmem with h | h
      · exact ht2mem (List.mem_of_mem_erase h)
      · simp only [List.mem_singleton] at h
        exact ht2ne1 h
    have := admitTask_full 0 ht2trim ht2ne (mapGet_eq_none_of_not_mem hnm2)
      (by rw [hlen3, hmax3])
    have h2 := congrArg Prod.fst this
    rw [hlen3, hmax3] at h2
    exact h2

/-- Witness for C1 at capacity 2 with task ids `a`, `b`, fresh ids `cc`,
`d`, releasing `a` by task id and by its grant id. -/
theorem c1_admission_controller_witness :
    ((admitAll 0 (mkAdmissionController 2) ["a", "b"]).1 = true ∧
      ((admitAll 0 (mkAdmissionController 2) ["a", "b"]).2.admitTask 0 "cc").1 =
        .rejected (overCapacityReason 2 2)) ∧
    (∃ g1 s3,
      ((admitAll 0 (mkAdmissionController 2) ["a", "b"]).2.release "a").admitTask 0 "cc" =
        (.allowed g1, s3) ∧
      (s3.admitTask 0 "d").1 = .rejected (overCapacityReason 2 2)) := by
  have h := c1_admission_controller 2 ["a", "b"] "cc" "d"
    (by decide) (by decide)
    (by decide)
    (by decide)
    (by refine ⟨?_, ?_, ?_, ?_⟩ <;> decide)
    (by refine ⟨?_, ?_, ?_, ?_, ?_⟩ <;> decide)
  refine ⟨⟨h.2.1, h.2.2.1⟩, ?_⟩
  have hget : mapGet (admitAll 0 (mkAdmissionController 2) ["a", "b"]).2.runningByTask "a"
      = some { grantId := "grant_", taskId := "a", grantedAt := 0 } := by decide
  exact h.2.2.2.2 "a" { grantId := "grant_", taskId := "a", grantedAt := 0 } hget "a"
    (Or.inl rfl)

/-! ## Idempotency Ledger (`lib/primitives/idempotency.ts`, `IdempotencyLedger`)

The ledger persists one JSON file per key under `sha256(key).json`; the file
store is modelled as a map keyed by the key itself (the digest is injective
in intent), and `fs` round-trips are modelled as exact.  The ambient clock
`this.now()` becomes a `nowMs` argument per call. -/

structure IdempotencyEntry where
  key : String
  createdAt : Nat
  expiresAt : Nat
deriving Repr, DecidableEq

structure IdempotencyCheck where
  duplicate : Bool
  entry : Option IdempotencyEntry
deriving Repr, DecidableEq

structure IdempotencyLedger where
  ttlSec : Nat
  store : List (String × IdempotencyEntry)
deriving Repr, DecidableEq

/-- Models the constructor: `ttlSec = Math.max(1, Math.floor(options.ttlSec))`
over an empty directory. -/
def mkIdempotencyLedger (ttlSec : Nat) : IdempotencyLedger :=
  { ttlSec := max 1 ttlSec, store := [] }

def IdempotencyLedger.check (l : IdempotencyLedger) (nowMs : Nat)
    (key : String) : IdempotencyCheck :=
  let normalized := jsTrim key
  if normalized = "" then { duplicate := false, entry := none }
  else
    match mapGet l.store normalized with
    | none => { duplicate := false, entry := none }
    | some entry =>
      if entry.expiresAt ≤ nowMs then { duplicate := false, entry := some entry }
      else { duplicate := true, entry := some entry }

def IdempotencyLedger.record (l : IdempotencyLedger) (nowMs : Nat) (key : String)
    (ttlSec : Nat) : Except String (IdempotencyEntry × IdempotencyLedger) :=
  let normalized := jsTrim key
  if normalized = "" then .error "idempotency key is required"
  else
    let ttl := max 1 ttlSec
    let entry : IdempotencyEntry :=
      { key := normalized, createdAt := nowMs, expiresAt := nowMs + ttl * 1000 }
    .ok (entry, { l with store := mapSet l.store normalized entry })

def IdempotencyLedger.checkAndRecord (l : IdempotencyLedger) (nowMs : Nat)
    (key : String) (ttlSec : Nat) :
    Except String (IdempotencyCheck × IdempotencyLedger) :=
  let existing := l.check nowMs key
  if existing.duplicate then .ok (existing, l)
  else
    match l.record nowMs key ttlSec with
    | .error e => .error e
    | .ok (entry, l2) => .ok ({ duplicate := false, entry := some entry }, l2)

/-- C2: for a non-empty key `k` and TTL `t ≥ 1` with no live entry for `k`,
`checkAndRecord` at time `n1` is non-duplicate and stores an entry created at
`n1` expiring at `n1 + t` seconds; a second call before that expiry is
duplicate (returning the stored entry, state unchanged); a third call at or
past the expiry is non-duplicate again and re-records. -/
theorem c2_idempotency_ledger
    (l : IdempotencyLedger) (k : String) (t : Nat) (n1 n2 n3 : Nat)
    (hk : jsTrim k ≠ "") (ht : 1 ≤ t)
    (hfresh : (l.check n1 k).duplicate = false)
    (hn2 : n2 < n1 + t * 1000)
    (hn3 : n1 + t * 1000 ≤ n3) :
    ∃ e1 l1,
      l.checkAndRecord n1 k t = .ok ({ duplicate := false, entry := some e1 }, l1) ∧
      e1.createdAt = n1 ∧ e1.expiresAt = n1 + t * 1000 ∧
      l1.checkAndRecord n2 k t = .ok ({ duplicate := true, entry := some e1 }, l1) ∧
      ∃ e3 l3,
        l1.checkAndRecord n3 k t =
          .ok ({ duplicate := false, entry := some e3 }, l3) ∧
        e3.createdAt = n3 ∧ e3.expiresAt = n3 + t * 1000 := by
  have hmax : max 1 t = t := Nat.max_eq_right ht
  refine ⟨⟨jsTrim k, n1, n1 + t * 1000⟩,
    ⟨l.ttlSec, mapSet l.store (jsTrim k) ⟨jsTrim k, n1, n1 + t * 1000⟩⟩,
    ?_, rfl, rfl, ?_, ?_⟩
  · simp only [IdempotencyLedger.checkAndRecord, hfresh, Bool.false_eq_true,
      if_false, IdempotencyLedger.record, if_neg hk, hmax]
  · have hget : mapGet (mapSet l.store (jsTrim k) ⟨jsTrim k, n1, n1 + t * 1000⟩)
        (jsTrim k) = some ⟨jsTrim k, n1, n1 + t * 1000⟩ :=
      mapGet_set_self _ _ _
    have hcheck : IdempotencyLedger.check
        ⟨l.ttlSec, mapSet l.store (jsTrim k) ⟨jsTrim k, n1, n1 + t * 1000⟩⟩ n2 k =
        { duplicate := true, entry := some ⟨jsTrim k, n1, n1 + t * 1000⟩ } := by
      simp only [IdempotencyLedger.check, if_neg hk, hget]
      rw [if_neg (by intro hle; omega)]
    simp only [IdempotencyLedger.checkAndRecord, hcheck]
    rfl
  · have hget : mapGet (mapSet l.store (jsTrim k) ⟨jsTrim k, n1, n1 + t * 1000⟩)
        (jsTrim k) = some ⟨jsTrim k, n1, n1 + t * 1000⟩ :=
      mapGet_set_self _ _ _
    have hcheck : IdempotencyLedger.check
        ⟨l.ttlSec, mapSet l.store (jsTrim k) ⟨jsTrim k, n1, n1 + t * 1000⟩⟩ n3 k =
        { duplicate := false, entry := some ⟨jsTrim k, n1, n1 + t * 1000⟩ } := by
      simp only [IdempotencyLedger.check, if_neg hk, hget]
      rw [if_pos hn3]
    refine ⟨⟨jsTrim k, n3, n3 + t * 1000⟩, ?_, ?_, rfl, rfl⟩
    · exact ⟨l.ttlSec, mapSet (mapSet l.store (jsTrim k) ⟨jsTrim k, n1, n1 + t * 1000⟩)
        (jsTrim k) ⟨jsTrim k, n3, n3 + t * 1000⟩⟩
    · simp only [IdempotencyLedger.checkAndRecord, hcheck, Bool.false_eq_true,
        if_false, IdempotencyLedger.record, if_neg hk, hmax]

/-- Witness for C2 with key `k1`, TTL 1 s, calls at 0 ms, 500 ms, 1000 ms. -/
theorem c2_idempotency_ledger_witness :
    ∃ e1 l1,
      (mkIdempotencyLedger 600).checkAndRecord 0 "k1" 1 =
        .ok ({ duplicate := false, entry := some e1 }, l1) ∧
      e1.createdAt = 0 ∧ e1.expiresAt = 1000 ∧
      l1.checkAndRecord 500 "k1" 1 = .ok ({ duplicate := true, entry := some e1 }, l1) ∧
      ∃ e3 l3,
        l1.checkAndRecord 1000 "k1" 1 =
          .ok ({ duplicate := false, entry := some e3 }, l3) ∧
        e3.createdAt = 1000 ∧ e3.expiresAt = 2000 := by
  have h := c2_idempotency_ledger (mkIdempotencyLedger 600) "k1" 1 0 500 1000
    (by decide) (by decide) (by decide) (by decide) (by decide)
  simpa using h

/-! ## JavaScript values

`Record<string, unknown>` payloads (work-item inputs, trace data, condition
contexts, loop payloads) are modelled by `JSValue`.  Numbers are modelled by
`Rat` (the expression language only parses decimal literals and compares;
double rounding is not modelled).  `jsEq` models `Object.is`, approximating
reference equality on arrays/objects structurally (no caller of this
codebase distinguishes the two). -/

inductive JSValue where
  | undef
  | null
  | bool (b : Bool)
  | num (q : Rat)
  | str (s : String)
  | arr (xs : List JSValue)
  | obj (fields : List (String × JSValue))

mutual

def jsEq : JSValue → JSValue → Bool
  | .undef, .undef => true
  | .null, .null => true
  | .bool a, .bool b => a == b
  | .num a, .num b => a == b
  | .str a, .str b => a == b
  | .arr a, .arr b => jsEqList a b
  | .obj a, .obj b => jsEqFields a b
  | _, _ => false

def jsEqList : List JSValue → List JSValue → Bool
  | [], [] => true
  | a :: as, b :: bs => jsEq a b && jsEqList as bs
  | _, _ => false

def jsEqFields : List (String × JSValue) → List (String × JSValue) → Bool
  | [], [] => true
  | (k1, v1) :: as, (k2, v2) :: bs => k1 == k2 && jsEq v1 v2 && jsEqFields as bs
  | _, _ => false

end

/-- JavaScript truthiness (`Boolean(x)`); model values carry no `NaN`. -/
def jsTruthy : JSValue → Bool
  | .undef => false
  | .null => false
  | .bool b => b
  | .num q => q != 0
  | .str s => s != ""
  | .arr _ => true
  | .obj _ => true

def optionStrTruthy : Option String → Bool
  | some a => a != ""
  | none => false

/-! ## `stableStringify` and hashing (`lib/util.ts`, `lib/primitives/freshness.ts`) -/

def hexDigitChar (n : Nat) : String :=
  String.singleton (if n < 10 then Char.ofNat (48 + n) else Char.ofNat (87 + n))

/-- Models `JSON.stringify` of a string value. -/
def jsonEscapeChar (c : Char) : String :=
  if c = '"' then "\\\""
  else if c = '\\' then "\\\\"
  else if c = '\n' then "\\n"
  else if c = '\r' then "\\r"
  else if c = '\t' then "\\t"
  else if c = '\x08' then "\\b"
  else if c = '\x0c' then "\\f"
  else if c.toNat < 32 then "\\u00" ++ hexDigitChar (c.toNat / 16) ++ hexDigitChar (c.toNat % 16)
  else String.singleton c

def jsonQuote (s : String) : String :=
  "\"" ++ String.join (s.data.map jsonEscapeChar) ++ "\""

def sortStringsInsert (x : String) : List String → List String
  | [] => [x]
  | y :: ys => if x ≤ y then x :: y :: ys else y :: sortStringsInsert x ys

/-- Models `Object.keys(record).sort()` (default lexicographic sort). -/
def sortStrings : List String → List String
  | [] => []
  | x :: xs => sortStringsInsert x (sortStrings xs)

/-- Models `String(value)` for a JS number; the JS double-to-string shortest
formatting is represented by the rational's canonical rendering. -/
def ratToString (q : Rat) : String :=
  toString q

/-! `stableStringify` from `lib/util.ts`: order-independent rendering with
object keys sorted. -/
mutual

def stableStringify : JSValue → String
  | .null => "null"
  | .undef => "undefined"
  | .str s => jsonQuote s
  | .num q => ratToString q
  | .bool b => if b then "true" else "false"
  | .arr xs => "[" ++ String.intercalate "," (stableStringifyList xs) ++ "]"
  | .obj fields =>
    let rendered := stableStringifyFields fields
    let keys := sortStrings (fields.map Prod.fst)
    "\x7b" ++ String.intercalate ","
      (keys.map fun k => jsonQuote k ++ ":" ++ ((mapGet rendered k).getD "undefined")) ++
      "\x7d"

def stableStringifyList : List JSValue → List String
  | [] => []
  | v :: vs => stableStringify v :: stableStringifyList vs

def stableStringifyFields : List (String × JSValue) → List (String × String)
  | [] => []
  | (kf, v) :: rest => (kf, stableStringify v) :: stableStringifyFields rest

end

/-- Models `sha256Hex` from `lib/util.ts`; `digest` stands for the
`node:crypto` SHA-256 hex digest, a platform primitive outside this
repository. -/
def sha256Hex (digest : String → String) (value : JSValue) : String :=
  digest (stableStringify value)

/-- Models `computeFreshnessHash` from `lib/primitives/freshness.ts`. -/
def computeFreshnessHash (digest : String → String) (payload : JSValue) : String :=
  digest (stableStringify payload)

/-! ## Harness Kernel (`lib/primitives/types.ts`, `lib/primitives/kernel.ts`
region of the `idempotency.ts` sources: `HarnessKernel`) -/

inductive WorkItemState where
  | pending
  | leased
  | running
  | completed
  | failed
  | cancelled
deriving Repr, DecidableEq

def WorkItemState.name : WorkItemState → String
  | .pending => "pending"
  | .leased => "leased"
  | .running => "running"
  | .completed => "completed"
  | .failed => "failed"
  | .cancelled => "cancelled"

/-- The `ALLOWED_TRANSITIONS` table. -/
def ALLOWED_TRANSITIONS : WorkItemState → List WorkItemState
  | .pending => [.leased, .cancelled, .failed]
  | .leased => [.pending, .running, .cancelled, .failed]
  | .running => [.completed, .failed, .cancelled]
  | .completed => []
  | .failed => []
  | .cancelled => []

def WorkItemState.isTerminal : WorkItemState → Bool
  | .completed => true
  | .failed => true
  | .cancelled => true
  | _ => false

structure WorkItem where
  id : String
  runId : String
  title : String
  goal : String
  ownerAgent : Option String
  state : WorkItemState
  createdAt : Nat
  updatedAt : Nat
  inputs : List (String × JSValue)

structure Lease where
  workItemId : String
  holder : String
  acquiredAt : Nat
  heartbeatAt : Nat
  expiresAt : Nat
  ttlMs : Nat
deriving Repr, DecidableEq

structure EvalResult where
  name : String
  passed : Bool
  blocking : Option Bool
  details : Option String
deriving Repr, DecidableEq

structure Handoff where
  workItemId : String
  runId : String
  fromAgent : String
  toAgent : Option String
  summary : String
  nextAction : String
  evals : List EvalResult
  freshnessHash : String
  createdAt : Nat
deriving Repr, DecidableEq

/-- An eval result as the JSON-ish object stored in the handoff payload
(absent optional fields are omitted, as for caller-built objects). -/
def evalResultToJS (e : EvalResult) : JSValue :=
  .obj ([("name", .str e.name), ("passed", .bool e.passed)] ++
    (match e.blocking with | some b => [("blocking", JSValue.bool b)] | none => []) ++
    (match e.details with | some d => [("details", JSValue.str d)] | none => []))

/-- `TraceEvent`; `data` is `[]` when the source passes no data object.  The
source spreads `options.data` after the fixed keys; since trace payloads are
never read back by the core, the append models that spread. -/
structure TraceEvent where
  id : String
  workItemId : String
  runId : String
  type : String
  timestamp : Nat
  agent : Option String
  data : List (String × JSValue)

structure RegisterWorkItemInput where
  id : String
  runId : Option String
  title : String
  goal : String
  ownerAgent : Option String
  inputs : Option (List (String × JSValue))

structure TransitionOptions where
  agent : Option String
  reason : Option String
  data : Option (List (String × JSValue))

def noTransitionOptions : TransitionOptions :=
  { agent := none, reason := none, data := none }

structure CompleteHandoffInput where
  fromAgent : String
  toAgent : Option String
  summary : String
  nextAction : String
  evals : Option (List EvalResult)

structure HarnessKernel where
  workItems : List (String × WorkItem)
  leases : List (String × Lease)
  handoffs : List (String × Handoff)
  trace : List TraceEvent
  defaultLeaseTtlMs : Nat
  maxTrace : Nat
  nextId : Nat

/-- Models `new HarnessKernel(options)` with both options given explicitly
(the TS defaults are 60000 and 2000). -/
def mkHarnessKernel (defaultLeaseTtlMs maxTrace : Nat) : HarnessKernel :=
  { workItems := []
    leases := []
    handoffs := []
    trace := []
    defaultLeaseTtlMs := max 1000 defaultLeaseTtlMs
    maxTrace := max 100 maxTrace
    nextId := 0 }

def HarnessKernel.pushTrace (k : HarnessKernel) (nowMs : Nat)
    (workItemId runId type : String) (agent : Option String)
    (data : List (String × JSValue)) : HarnessKernel :=
  let ev : TraceEvent :=
    { id := createId "evt" k.nextId, workItemId := workItemId, runId := runId,
      type := type, timestamp := nowMs, agent := agent, data := data }
  let trace1 := k.trace ++ [ev]
  let trace2 :=
    if k.maxTrace < trace1.length then trace1.drop (trace1.length - k.maxTrace)
    else trace1
  { k with trace := trace2, nextId := k.nextId + 1 }

def HarnessKernel.registerWorkItem (k : HarnessKernel) (nowMs : Nat)
    (input : RegisterWorkItemInput) : WorkItem × HarnessKernel :=
  match mapGet k.workItems input.id with
  | some existing => (existing, k)
  | none =>
    let rid : String × HarnessKernel :=
      match input.runId with
      | some r => (r, k)
      | none => (createId "run" k.nextId, { k with nextId := k.nextId + 1 })
    let item : WorkItem :=
      { id := input.id, runId := rid.1, title := input.title, goal := input.goal,
        ownerAgent := input.ownerAgent, state := .pending,
        createdAt := nowMs, updatedAt := nowMs, inputs := input.inputs.getD [] }
    let k2 := { rid.2 with workItems := mapSet rid.2.workItems item.id item }
    let k3 := k2.pushTrace nowMs item.id item.runId "workitem.created"
      item.ownerAgent [("title", .str item.title)]
    (item, k3)

def HarnessKernel.getLease (k : HarnessKernel) (nowMs : Nat)
    (workItemId : String) : Option Lease × HarnessKernel :=
  match mapGet k.leases workItemId with
  | none => (none, k)
  | some lease =>
    if lease.expiresAt ≤ nowMs then
      (none, { k with leases := mapDelete k.leases workItemId })
    else (some lease, k)

structure TransitionResult where
  ok : Bool
  item : Option WorkItem
  error : Option String

def HarnessKernel.transitionWorkItem (k : HarnessKernel) (nowMs : Nat)
    (workItemId : String) (nextState : WorkItemState)
    (options : TransitionOptions) : TransitionResult × HarnessKernel :=
  match mapGet k.workItems workItemId with
  | none =>
    ({ ok := false, item := none,
       error := some ("unknown work item: " ++ workItemId) }, k)
  | some item =>
    if item.state = nextState then
      ({ ok := true, item := some item, error := none }, k)
    else if nextState ∈ ALLOWED_TRANSITIONS item.state then
      let item2 : WorkItem :=
        { item with
          state := nextState
          updatedAt := nowMs
          ownerAgent :=
            if optionStrTruthy options.agent then options.agent
            else item.ownerAgent }
      let k1 := { k with workItems := mapSet k.workItems workItemId item2 }
      let k2 :=
        if nextState = .completed ∨ nextState = .failed ∨ nextState = .cancelled then
          { k1 with leases := mapDelete k1.leases workItemId }
        else k1
      let k3 := k2.pushTrace nowMs workItemId item.runId "workitem.transition"
        options.agent
        ([("from", .str item.state.name), ("to", .str nextState.name),
          ("reason", match options.reason with | some r => .str r | none => .undef)] ++
          options.data.getD [])
      ({ ok := true, item := some item2, error := none }, k3)
    else
      ({ ok := false, item := none,
         error := some ("invalid transition " ++ item.state.name ++ " -> " ++
           nextState.name) }, k)

structure LeaseResult where
  ok : Bool
  lease : Option Lease
  error : Option String
deriving Repr, DecidableEq

def HarnessKernel.acquireLease (k : HarnessKernel) (nowMs : Nat)
    (workItemId holder : String) (ttlMs : Nat) : LeaseResult × HarnessKernel :=
  match mapGet k.workItems workItemId with
  | none =>
    ({ ok := false, lease := none,
       error := some ("unknown work item: " ++ workItemId) }, k)
  | some item =>
    let normalizedHolder := jsTrim holder
    if normalizedHolder = "" then
      ({ ok := false, lease := none, error := some "holder is required" }, k)
    else
      let ga := k.getLease nowMs workItemId
      let store := fun (k1 : HarnessKernel) (acquiredAt : Nat) =>
        let lease : Lease :=
          { workItemId := workItemId, holder := normalizedHolder,
            acquiredAt := acquiredAt, heartbeatAt := nowMs,
            expiresAt := nowMs + max 1000 ttlMs, ttlMs := max 1000 ttlMs }
        let k2 := { k1 with leases := mapSet k1.leases workItemId lease }
        let k3 :=
          if item.state = .pending then
            (k2.transitionWorkItem nowMs workItemId .leased
              { agent := some normalizedHolder, reason := some "lease acquired",
                data := none }).2
          else k2
        let k4 := k3.pushTrace nowMs workItemId item.runId "lease.acquired"
          (some normalizedHolder) [("ttlMs", .num (lease.ttlMs : Rat))]
        ({ ok := true, lease := some lease, error := none }, k4)
      match ga.1 with
      | some active =>
        if active.holder ≠ normalizedHolder then
          ({ ok := false, lease := none,
             error := some ("lease held by " ++ active.holder) }, ga.2)
        else store ga.2 active.acquiredAt
      | none => store ga.2 nowMs

def HarnessKernel.heartbeatLease (k : HarnessKernel) (nowMs : Nat)
    (workItemId holder : String) : LeaseResult × HarnessKernel :=
  match mapGet k.workItems workItemId with
  | none =>
    ({ ok := false, lease := none,
       error := some ("unknown work item: " ++ workItemId) }, k)
  | some item =>
    let gl := k.getLease nowMs workItemId
    match gl.1 with
    | none => ({ ok := false, lease := none, error := some "no active lease" }, gl.2)
    | some lease =>
      if lease.holder ≠ holder then
        ({ ok := false, lease := none,
           error := some ("lease held by " ++ lease.holder) }, gl.2)
      else
        let nextLease : Lease :=
          { lease with heartbeatAt := nowMs, expiresAt := nowMs + lease.ttlMs }
        let k2 := { gl.2 with leases := mapSet gl.2.leases workItemId nextLease }
        let k3 := k2.pushTrace nowMs workItemId item.runId "lease.heartbeat"
          (some holder) []
        ({ ok := true, lease := some nextLease, error := none }, k3)

structure SimpleResult where
  ok : Bool
  error : Option String
deriving Repr, DecidableEq

def HarnessKernel.releaseLease (k : HarnessKernel) (nowMs : Nat)
    (workItemId holder reason : String) : SimpleResult × HarnessKernel :=
  match mapGet k.workItems workItemId with
  | none =>
    ({ ok := false, error := some ("unknown work item: " ++ workItemId) }, k)
  | some item =>
    match mapGet k.leases workItemId with
    | none => ({ ok := true, error := none }, k)
    | some lease =>
      if lease.holder ≠ holder then
        ({ ok := false, error := some ("lease held by " ++ lease.holder) }, k)
      else
        let k1 := { k with leases := mapDelete k.leases workItemId }
        let k2 := k1.pushTrace nowMs workItemId item.runId "lease.released"
          (some holder) [("reason", .str reason)]
        ({ ok := true, error := none }, k2)

structure HandoffResult where
  ok : Bool
  handoff : Option Handoff
  state : Option WorkItemState
  error : Option String
deriving Repr, DecidableEq

def HarnessKernel.completeWithHandoff (digest : String → String)
    (k : HarnessKernel) (nowMs : Nat) (workItemId : String)
    (input : CompleteHandoffInput) : HandoffResult × HarnessKernel :=
  match mapGet k.workItems workItemId with
  | none =>
    ({ ok := false, handoff := none, state := none,
       error := some ("unknown work item: " ++ workItemId) }, k)
  | some item =>
    let evals := input.evals.getD []
    let blockingFailures := evals.filter (fun e => (e.blocking.getD true) && !e.passed)
    let nextState : WorkItemState :=
      if 0 < blockingFailures.length then .failed else .completed
    let tr := k.transitionWorkItem nowMs workItemId nextState
      { agent := some input.fromAgent
        reason := some (if nextState = WorkItemState.completed then "handoff complete"
          else "blocking eval failed")
        data := some [("blockingFailures", .num (blockingFailures.length : Rat))] }
    if tr.1.ok = false then
      ({ ok := false, handoff := none, state := none,
         error := some (tr.1.error.getD "transition failed") }, tr.2)
    else
      let rl := tr.2.releaseLease nowMs workItemId input.fromAgent nextState.name
      let handoff : Handoff :=
        { workItemId := workItemId
          runId := item.runId
          fromAgent := input.fromAgent
          toAgent := input.toAgent
          summary := input.summary
          nextAction := input.nextAction
          evals := evals
          freshnessHash := computeFreshnessHash digest (.obj
            [("summary", .str input.summary), ("nextAction", .str input.nextAction),
             ("evals", .arr (evals.map evalResultToJS))])
          createdAt := nowMs }
      let k2 := { rl.2 with handoffs := mapSet rl.2.handoffs workItemId handoff }
      let k3 := k2.pushTrace nowMs workItemId item.runId "handoff.created"
        (some input.fromAgent) [("freshnessHash", .str handoff.freshnessHash)]
      ({ ok := nextState == WorkItemState.completed, handoff := some handoff,
         state := some nextState, error := none }, k3)

def HarnessKernel.cancelWorkItem (k : HarnessKernel) (nowMs : Nat)
    (workItemId agent reason : String) : SimpleResult × HarnessKernel :=
  let tr := k.transitionWorkItem nowMs workItemId .cancelled
    { agent := some agent, reason := some reason, data := none }
  if tr.1.ok = false then
    ({ ok := false, error := some (tr.1.error.getD "transition failed") }, tr.2)
  else
    let rl := tr.2.releaseLease nowMs workItemId agent reason
    ({ ok := true, error := none }, rl.2)

def HarnessKernel.failWorkItem (k : HarnessKernel) (nowMs : Nat)
    (workItemId agent reason : String) : SimpleResult × HarnessKernel :=
  let tr := k.transitionWorkItem nowMs workItemId .failed
    { agent := some agent, reason := some reason, data := none }
  if tr.1.ok = false then
    ({ ok := false, error := some (tr.1.error.getD "transition failed") }, tr.2)
  else
    let rl := tr.2.releaseLease nowMs workItemId agent reason
    ({ ok := true, error := none }, rl.2)

/-! ## Kernel characterization lemmas -/

theorem transitionWorkItem_unknown {k : HarnessKernel} {nowMs : Nat} {id : String}
    {next : WorkItemState} {opts : TransitionOptions}
    (hnone : mapGet k.workItems id = none) :
    k.transitionWorkItem nowMs id next opts =
      ({ ok := false, item := none, error := some ("unknown work item: " ++ id) }, k) := by
  simp only [HarnessKernel.transitionWorkItem]
  split
  · rfl
  · next item hsome =>
    rw [hnone] at hsome
    cases hsome

theorem transitionWorkItem_noop {k : HarnessKernel} {nowMs : Nat} {id : String}
    {item : WorkItem} {next : WorkItemState} {opts : TransitionOptions}
    (hitem : mapGet k.workItems id = some item) (heq : item.state = next) :
    k.transitionWorkItem nowMs id next opts =
      ({ ok := true, item := some item, error := none }, k) := by
  simp only [HarnessKernel.transitionWorkItem]
  split
  · next hnone => rw [hitem] at hnone; cases hnone
  · next item0 hsome =>
    rw [hitem] at hsome
    injection hsome with hi
    subst hi
    rw [if_pos heq]

theorem transitionWorkItem_invalid {k : HarnessKernel} {nowMs : Nat} {id : String}
    {item : WorkItem} {next : WorkItemState} {opts : TransitionOptions}
    (hitem : mapGet k.workItems id = some item)
    (hne : ¬ item.state = next) (hmem : next ∉ ALLOWED_TRANSITIONS item.state) :
    k.transitionWorkItem nowMs id next opts =
      ({ ok := false, item := none,
         error := some ("invalid transition " ++ item.state.name ++ " -> " ++
           next.name) }, k) := by
  simp only [HarnessKernel.transitionWorkItem]
  split
  · next hnone => rw [hitem] at hnone; cases hnone
  · next item0 hsome =>
    rw [hitem] at hsome
    injection hsome with hi
    subst hi
    rw [if_neg hne, if_neg hmem]

theorem transitionWorkItem_ok {k : HarnessKernel} {nowMs : Nat} {id : String}
    {item : WorkItem} {next : WorkItemState} {opts : TransitionOptions}
    (hitem : mapGet k.workItems id = some item)
    (hne : ¬ item.state = next) (hmem : next ∈ ALLOWED_TRANSITIONS item.state) :
    k.transitionWorkItem nowMs id next opts =
      (let item2 : WorkItem :=
         { item with
           state := next
           updatedAt := nowMs
           ownerAgent := (if optionStrTruthy opts.agent then opts.agent else item.ownerAgent) }
       let k1 := { k with workItems := mapSet k.workItems id item2 }
       let k2 := if next = .completed ∨ next = .failed ∨ next = .cancelled then
           { k1 with leases := mapDelete k1.leases id } else k1
       let k3 := k2.pushTrace nowMs id item.runId "workitem.transition" opts.agent
         ([("from", .str item.state.name), ("to", .str next.name),
           ("reason", match opts.reason with | some r => .str r | none => .undef)] ++
           opts.data.getD [])
       ({ ok := true, item := some item2, error := none }, k3)) := by
  simp only [HarnessKernel.transitionWorkItem]
  split
  · next hnone => rw [hitem] at hnone; cases hnone
  · next item0 hsome =>
    rw [hitem] at hsome
    injection hsome with hi
    subst hi
    rw [if_neg hne, if_pos hmem]

theorem pushTrace_workItems (k : HarnessKernel) (nowMs : Nat) (a b c : String)
    (agent : Option String) (data : List (String × JSValue)) :
    (k.pushTrace nowMs a b c agent data).workItems = k.workItems := rfl

theorem pushTrace_handoffs (k : HarnessKernel) (nowMs : Nat) (a b c : String)
    (agent : Option String) (data : List (String × JSValue)) :
    (k.pushTrace nowMs a b c agent data).handoffs = k.handoffs := rfl

theorem pushTrace_leases (k : HarnessKernel) (nowMs : Nat) (a b c : String)
    (agent : Option String) (data : List (String × JSValue)) :
    (k.pushTrace nowMs a b c agent data).leases = k.leases := rfl

theorem releaseLease_workItems (k : HarnessKernel) (nowMs : Nat)
    (a b r : String) : ((k.releaseLease nowMs a b r).2).workItems = k.workItems := by
  rcases hw : mapGet k.workItems a with _ | item
  · simp [HarnessKernel.releaseLease, hw]
  · rcases hl : mapGet k.leases a with _ | lease
    · simp [HarnessKernel.releaseLease, hw, hl]
    · by_cases hh : lease.holder ≠ b
      · simp [HarnessKernel.releaseLease, hw, hl, hh]
      · simp [HarnessKernel.releaseLease, hw, hl, hh, pushTrace_workItems]

theorem releaseLease_handoffs (k : HarnessKernel) (nowMs : Nat)
    (a b r : String) : ((k.releaseLease nowMs a b r).2).handoffs = k.handoffs := by
  rcases hw : mapGet k.workItems a with _ | item
  · simp [HarnessKernel.releaseLease, hw]
  · rcases hl : mapGet k.leases a with _ | lease
    · simp [HarnessKernel.releaseLease, hw, hl]
    · by_cases hh : lease.holder ≠ b
      · simp [HarnessKernel.releaseLease, hw, hl, hh]
      · simp [HarnessKernel.releaseLease, hw, hl, hh, pushTrace_handoffs]

/-- C4: for a registered work item, `transitionWorkItem` is a no-op success
when the requested state equals the current one, and any pair outside the
`ALLOWED_TRANSITIONS` table fails with an `invalid transition` error naming
both states, leaving the kernel (and so the item's state) unchanged. -/
theorem c4_kernel_transitions
    (k : HarnessKernel) (nowMs : Nat) (id : String) (item : WorkItem)
    (next : WorkItemState) (opts : TransitionOptions)
    (hitem : mapGet k.workItems id = some item) :
    (next = item.state →
      k.transitionWorkItem nowMs id next opts =
        ({ ok := true, item := some item, error := none }, k)) ∧
    (next ≠ item.state → next ∉ ALLOWED_TRANSITIONS item.state →
      k.transitionWorkItem nowMs id next opts =
        ({ ok := false, item := none,
           error := some ("invalid transition " ++ item.state.name ++ " -> " ++
             next.name) }, k)) := by
  constructor
  · intro h
    exact transitionWorkItem_noop hitem h.symm
  · intro hne hmem
    exact transitionWorkItem_invalid hitem (fun e => hne e.symm) hmem

def c4WitnessKernel : HarnessKernel :=
  ((mkHarnessKernel 60000 2000).registerWorkItem 0
    { id := "w1", runId := some "run-1", title := "T", goal := "G",
      ownerAgent := none, inputs := none }).2

def c4WitnessItem : WorkItem :=
  { id := "w1", runId := "run-1", title := "T", goal := "G", ownerAgent := none,
    state := .pending, createdAt := 0, updatedAt := 0, inputs := [] }

/-- Witness for C4: a freshly registered (pending) item; requesting `pending`
again is a no-op success, requesting `running` fails naming both states. -/
theorem c4_kernel_transitions_witness :
    mapGet c4WitnessKernel.workItems "w1" = some c4WitnessItem ∧
    c4WitnessKernel.transitionWorkItem 1 "w1" WorkItemState.pending
        noTransitionOptions =
      ({ ok := true, item := some c4WitnessItem, error := none }, c4WitnessKernel) ∧
    c4WitnessKernel.transitionWorkItem 1 "w1" WorkItemState.running
        noTransitionOptions =
      ({ ok := false, item := none,
         error := some "invalid transition pending -> running" }, c4WitnessKernel) := by
  have hget : mapGet c4WitnessKernel.workItems "w1" = some c4WitnessItem := rfl
  refine ⟨hget, ?_, ?_⟩
  · exact (c4_kernel_transitions c4WitnessKernel 1 "w1" c4WitnessItem
      WorkItemState.pending noTransitionOptions hget).1 rfl
  · exact (c4_kernel_transitions c4WitnessKernel 1 "w1" c4WitnessItem
      WorkItemState.running noTransitionOptions hget).2 (by decide) (by decide)

/-- The target state `completeWithHandoff` computes from the evals: `failed`
when some blocking failure exists (blocking defaults to true), else
`completed`. -/
def handoffTargetState (evals : List EvalResult) : WorkItemState :=
  if 0 < (evals.filter (fun e => (e.blocking.getD true) && !e.passed)).length then
    .failed
  else .completed

theorem blocking_getD_iff (b : Option Bool) : b.getD true = true ↔ b ≠ some false := by
  cases b with
  | none => simp
  | some v => cases v <;> simp

theorem filter_key_mapSet_len {α : Type} (m : List (String × α)) (k : String) (v : α)
    (h : (m.filter (fun p => p.1 == k)).length ≤ 1) :
    ((mapSet m k v).filter (fun p => p.1 == k)).length = 1 := by
  induction m with
  | nil => simp [mapSet]
  | cons p rest ih =>
    obtain ⟨k0, v0⟩ := p
    by_cases h0 : k0 = k
    · subst h0
      rw [show mapSet ((k0, v0) :: rest) k0 v = (k0, v) :: rest from by simp [mapSet]]
      simp only [List.filter_cons, beq_self_eq_true, if_pos] at h ⊢
      simp only [List.length_cons] at h ⊢
      omega
    · rw [show mapSet ((k0, v0) :: rest) k v = (k0, v0) :: mapSet rest k v from by
        simp [mapSet, h0]]
      have hb : (k0 == k) = false := by simpa using h0
      simp only [List.filter_cons, hb] at h ⊢
      exact ih h

/-- C5: for a registered work item from whose state the computed target
transition is allowed (or a no-op), `completeWithHandoff` targets `failed`
exactly when some eval has `passed = false` with `blocking` not explicitly
`false`, else `completed`; the item ends in the target state; exactly one
Handoff is stored for the id, carrying a freshness hash computed over
`{summary, nextAction, evals}`; and the call returns `ok` exactly when the
resulting state is `completed`, returning the stored Handoff and state
either way. -/
theorem c5_complete_with_handoff
    (digest : String → String) (k : HarnessKernel) (nowMs : Nat) (id : String)
    (item : WorkItem) (input : CompleteHandoffInput)
    (hitem : mapGet k.workItems id = some item)
    (hallowed : item.state = handoffTargetState (input.evals.getD []) ∨
      handoffTargetState (input.evals.getD []) ∈ ALLOWED_TRANSITIONS item.state)
    (hcount : (k.handoffs.filter (fun p => p.1 == id)).length ≤ 1) :
    (handoffTargetState (input.evals.getD []) = WorkItemState.failed ↔
      ∃ e ∈ input.evals.getD [], e.passed = false ∧ e.blocking ≠ some false) ∧
    (k.completeWithHandoff digest nowMs id input).1.ok =
      (handoffTargetState (input.evals.getD []) == WorkItemState.completed) ∧
    (k.completeWithHandoff digest nowMs id input).1.state =
      some (handoffTargetState (input.evals.getD [])) ∧
    (k.completeWithHandoff digest nowMs id input).1.error = none ∧
    (∃ item2, mapGet (k.completeWithHandoff digest nowMs id input).2.workItems id =
        some item2 ∧ item2.state = handoffTargetState (input.evals.getD [])) ∧
    (∃ h, (k.completeWithHandoff digest nowMs id input).1.handoff = some h ∧
      mapGet (k.completeWithHandoff digest nowMs id input).2.handoffs id = some h ∧
      ((k.completeWithHandoff digest nowMs id input).2.handoffs.filter
        (fun p => p.1 == id)).length = 1 ∧
      h.summary = input.summary ∧ h.nextAction = input.nextAction ∧
      h.evals = input.evals.getD [] ∧
      h.freshnessHash = computeFreshnessHash digest (JSValue.obj
        [("summary", JSValue.str input.summary),
         ("nextAction", JSValue.str input.nextAction),
         ("evals", JSValue.arr ((input.evals.getD []).map evalResultToJS))])) := by
  constructor
  · constructor
    · intro hf
      simp only [handoffTargetState] at hf
      by_cases hl : 0 < ((input.evals.getD []).filter
          (fun e => (e.blocking.getD true) && !e.passed)).length
      · obtain ⟨e, he⟩ := List.exists_mem_of_length_pos hl
        have hmf := List.mem_filter.1 he
        have hAnd : (e.blocking.getD true) = true ∧ (!e.passed) = true := by
          simpa using hmf.2
        refine ⟨e, hmf.1, ?_, ?_⟩
        · simpa using hAnd.2
        · exact (blocking_getD_iff e.blocking).1 hAnd.1
      · rw [if_neg hl] at hf
        cases hf
    · intro hex
      obtain ⟨e, he, hp, hb⟩ := hex
      have hpe : ((e.blocking.getD true) && !e.passed) = true := by
        rw [Bool.and_eq_true]
        exact ⟨(blocking_getD_iff e.blocking).2 hb, by simp [hp]⟩
      have hmem0 : e ∈ (input.evals.getD []).filter
          (fun e => (e.blocking.getD true) && !e.passed) :=
        List.mem_filter.2 ⟨he, hpe⟩
      have hl : 0 < ((input.evals.getD []).filter
          (fun e => (e.blocking.getD true) && !e.passed)).length :=
        List.length_pos.2 (List.ne_nil_of_mem hmem0)
      simp only [handoffTargetState, if_pos hl]
  · simp only [handoffTargetState] at hallowed ⊢
    simp only [HarnessKernel.completeWithHandoff]
    split
    · next hnone => rw [hitem] at hnone; cases hnone
    · next item0 hsome =>
      rw [hitem] at hsome
      injection hsome with hi
      subst hi
      by_cases hsame : item.state =
          (if 0 < ((input.evals.getD []).filter
              (fun e => (e.blocking.getD true) && !e.passed)).length then
            WorkItemState.failed else WorkItemState.completed)
      · rw [transitionWorkItem_noop hitem hsame]
        rw [if_neg (show ¬(true = false) from by decide)]
        refine ⟨rfl, rfl, rfl, ⟨item, ?_, hsame⟩, ?_⟩
        · dsimp only
          rw [pushTrace_workItems]
          dsimp only
          rw [releaseLease_workItems]
          exact hitem
        · refine ⟨_, rfl, ?_, ?_, rfl, rfl, rfl, rfl⟩
          · dsimp only
            rw [pushTrace_handoffs]
            dsimp only
            exact mapGet_set_self _ _ _
          · dsimp only
            rw [pushTrace_handoffs]
            dsimp only
            refine filter_key_mapSet_len _ _ _ ?_
            rw [releaseLease_handoffs]
            exact hcount
      · have hmem2 : (if 0 < ((input.evals.getD []).filter
              (fun e => (e.blocking.getD true) && !e.passed)).length then
            WorkItemState.failed else WorkItemState.completed) ∈
            ALLOWED_TRANSITIONS item.state := by
          rcases hallowed with h | h
          · exact absurd h hsame
          · exact h
        rw [transitionWorkItem_ok hitem hsame hmem2]
        rw [if_neg (show ¬(true = false) from by decide)]
        refine ⟨rfl, rfl, rfl,
          ⟨⟨item.id, item.runId, item.title, item.goal,
            (if optionStrTruthy (some input.fromAgent) then some input.fromAgent
              else item.ownerAgent),
            (if 0 < ((input.evals.getD []).filter
                (fun e => (e.blocking.getD true) && !e.passed)).length then
              WorkItemState.failed else WorkItemState.completed),
            item.createdAt, nowMs, item.inputs⟩, ?_, rfl⟩, ?_⟩
        · dsimp only
          rw [pushTrace_workItems]
          dsimp only
          rw [releaseLease_workItems, pushTrace_workItems]
          split
          · exact mapGet_set_self _ _ _
          · exact mapGet_set_self _ _ _
        · refine ⟨_, rfl, ?_, ?_, rfl, rfl, rfl, rfl⟩
          · dsimp only
            rw [pushTrace_handoffs]
            dsimp only
            exact mapGet_set_self _ _ _
          · dsimp only
            rw [pushTrace_handoffs]
            dsimp only
            refine filter_key_mapSet_len _ _ _ ?_
            rw [releaseLease_handoffs, pushTrace_handoffs]
            split
            · exact hcount
            · exact hcount

def c5Kernel : HarnessKernel :=
  ((((mkHarnessKernel 60000 2000).registerWorkItem 0
      { id := "w1", runId := some "r1", title := "T", goal := "G",
        ownerAgent := none, inputs := none }).2.acquireLease 0 "w1" "oracle"
      60000).2.transitionWorkItem 0 "w1" WorkItemState.running
      { agent := some "oracle", reason := none, data := none }).2

def c5Item : WorkItem :=
  { id := "w1", runId := "r1", title := "T", goal := "G",
    ownerAgent := some "oracle", state := WorkItemState.running,
    createdAt := 0, updatedAt := 0, inputs := [] }

def c5Input : CompleteHandoffInput :=
  { fromAgent := "oracle", toAgent := none, summary := "done",
    nextAction := "none",
    evals := some [⟨"exit_code", true, some true, none⟩] }

/-- Witness for C5: a running item completed with one passing blocking eval;
the target is `completed` and the call succeeds. -/
theorem c5_complete_with_handoff_witness :
    ((c5Kernel.completeWithHandoff (fun s => s) 1 "w1" c5Input).1.ok =
      (handoffTargetState (c5Input.evals.getD []) == WorkItemState.completed) ∧
     (c5Kernel.completeWithHandoff (fun s => s) 1 "w1" c5Input).1.state =
      some (handoffTargetState (c5Input.evals.getD []))) ∧
    handoffTargetState (c5Input.evals.getD []) = WorkItemState.completed := by
  have h := c5_complete_with_handoff (fun s => s) c5Kernel 1 "w1" c5Item c5Input
    (by rfl) (by decide) (by decide)
  exact ⟨⟨h.2.1, h.2.2.1⟩, by decide⟩

/-- C10: `completeWithHandoff` on a still-pending item whose evals have no
blocking failure fails with `invalid transition pending -> completed`,
leaving the kernel (hence the item's state, and the absence of a Handoff)
unchanged — while the same call with a blocking failure succeeds
mechanically by transitioning `pending → failed` (ok is still false) and
does store a Handoff. -/
theorem c10_complete_pending
    (digest : String → String) (k : HarnessKernel) (nowMs : Nat) (id : String)
    (item : WorkItem) (input input2 : CompleteHandoffInput)
    (hitem : mapGet k.workItems id = some item)
    (hpending : item.state = WorkItemState.pending)
    (hnoblock : ∀ e ∈ input.evals.getD [],
      ((e.blocking.getD true) && !e.passed) = false)
    (hblock : ∃ e ∈ input2.evals.getD [],
      ((e.blocking.getD true) && !e.passed) = true) :
    k.completeWithHandoff digest nowMs id input =
      ({ ok := false, handoff := none, state := none,
         error := some "invalid transition pending -> completed" }, k) ∧
    (k.completeWithHandoff digest nowMs id input2).1.ok = false ∧
    (k.completeWithHandoff digest nowMs id input2).1.state =
      some WorkItemState.failed ∧
    (k.completeWithHandoff digest nowMs id input2).1.error = none ∧
    (∃ h, mapGet (k.completeWithHandoff digest nowMs id input2).2.handoffs id =
      some h) := by
  have hfilter : (input.evals.getD []).filter
      (fun e => (e.blocking.getD true) && !e.passed) = [] := by
    rw [List.filter_eq_nil]
    intro e he
    simp [hnoblock e he]
  obtain ⟨e2, he2, hpe2⟩ := hblock
  have hlen : 0 < ((input2.evals.getD []).filter
      (fun e => (e.blocking.getD true) && !e.passed)).length :=
    List.length_pos.2 (List.ne_nil_of_mem (List.mem_filter.2 ⟨he2, hpe2⟩))
  have hne1 : ¬ item.state = WorkItemState.completed := by
    rw [hpending]; decide
  have hmem1 : WorkItemState.completed ∉ ALLOWED_TRANSITIONS item.state := by
    rw [hpending]; decide
  have hne2 : ¬ item.state = WorkItemState.failed := by
    rw [hpending]; decide
  have hmem2 : WorkItemState.failed ∈ ALLOWED_TRANSITIONS item.state := by
    rw [hpending]; decide
  refine ⟨?_, ?_⟩
  · simp only [HarnessKernel.completeWithHandoff]
    split
    · next hnone => rw [hitem] at hnone; cases hnone
    · next item0 hsome =>
      rw [hitem] at hsome
      injection hsome with hi
      subst hi
      rw [hfilter]
      simp only [List.length_nil, lt_self_iff_false, if_false]
      rw [transitionWorkItem_invalid hitem hne1 hmem1]
      rw [if_pos rfl, hpending]
      rfl
  · simp only [HarnessKernel.completeWithHandoff]
    split
    · next hnone => rw [hitem] at hnone; cases hnone
    · next item0 hsome =>
      rw [hitem] at hsome
      injection hsome with hi
      subst hi
      rw [if_pos hlen]
      rw [transitionWorkItem_ok hitem hne2 hmem2]
      rw [if_neg (show ¬(true = false) from by decide)]
      refine ⟨rfl, rfl, rfl, ?_⟩
      dsimp only
      rw [pushTrace_handoffs]
      dsimp only
      exact ⟨_, mapGet_set_self _ _ _⟩

def c10WitnessKernel : HarnessKernel :=
  ((mkHarnessKernel 60000 2000).registerWorkItem 0
    { id := "w2", runId := some "r2", title := "T", goal := "G",
      ownerAgent := none, inputs := none }).2

def c10WitnessItem : WorkItem :=
  { id := "w2", runId := "r2", title := "T", goal := "G", ownerAgent := none,
    state := .pending, createdAt := 0, updatedAt := 0, inputs := [] }

def c10InputPass : CompleteHandoffInput :=
  { fromAgent := "oracle", toAgent := none, summary := "s", nextAction := "n",
    evals := some [⟨"e", true, some true, none⟩] }

def c10InputFail : CompleteHandoffInput :=
  { fromAgent := "oracle", toAgent := none, summary := "s", nextAction := "n",
    evals := some [⟨"e", false, some true, none⟩] }

/-- Witness for C10 on a freshly registered pending item. -/
theorem c10_complete_pending_witness :
    c10WitnessKernel.completeWithHandoff (fun s => s) 1 "w2" c10InputPass =
      ({ ok := false, handoff := none, state := none,
         error := some "invalid transition pending -> completed" },
       c10WitnessKernel) ∧
    (c10WitnessKernel.completeWithHandoff (fun s => s) 1 "w2" c10InputFail).1.state =
      some WorkItemState.failed := by
  have h := c10_complete_pending (fun s => s) c10WitnessKernel 1 "w2"
    c10WitnessItem c10InputPass c10InputFail (by rfl) (by decide)
    (by decide) (by decide)
  exact ⟨h.1, h.2.2.1⟩

/-! ## Kernel step relation and the lease/terminal invariant (C3) -/

theorem mem_of_mem_mapSet {α : Type} {m : List (String × α)} {k : String} {v : α}
    {p : String × α} (h : p ∈ mapSet m k v) : p = (k, v) ∨ p ∈ m := by
  induction m with
  | nil => simpa [mapSet] using h
  | cons q rest ih =>
    obtain ⟨k0, v0⟩ := q
    by_cases h0 : k0 = k
    · subst h0
      rw [show mapSet ((k0, v0) :: rest) k0 v = (k0, v) :: rest from by
        simp [mapSet]] at h
      rcases List.mem_cons.1 h with h1 | h1
      · exact Or.inl h1
      · exact Or.inr (List.mem_cons_of_mem _ h1)
    · rw [show mapSet ((k0, v0) :: rest) k v = (k0, v0) :: mapSet rest k v from by
        simp [mapSet, h0]] at h
      rcases List.mem_cons.1 h with h1 | h1
      · exact Or.inr (by simp [h1])
      · rcases ih h1 with h2 | h2
        · exact Or.inl h2
        · exact Or.inr (List.mem_cons_of_mem _ h2)

theorem mapKeys_set_mem {α : Type} {m : List (String × α)} {k : String} (v : α)
    (h : k ∈ mapKeys m) : mapKeys (mapSet m k v) = mapKeys m := by
  induction m with
  | nil => simp [mapKeys] at h
  | cons q rest ih =>
    obtain ⟨k0, v0⟩ := q
    by_cases h0 : k0 = k
    · subst h0
      rw [show mapSet ((k0, v0) :: rest) k0 v = (k0, v) :: rest from by simp [mapSet]]
      rfl
    · rw [show mapSet ((k0, v0) :: rest) k v = (k0, v0) :: mapSet rest k v from by
        simp [mapSet, h0]]
      have hk : k ∈ mapKeys rest := by
        rw [show mapKeys ((k0, v0) :: rest) = k0 :: mapKeys rest from rfl] at h
        rcases List.mem_cons.1 h with h1 | h1
        · exact absurd h1.symm h0
        · exact h1
      rw [show mapKeys ((k0, v0) :: mapSet rest k v) =
        k0 :: mapKeys (mapSet rest k v) from rfl]
      rw [show mapKeys ((k0, v0) :: rest) = k0 :: mapKeys rest from rfl]
      rw [ih hk]

theorem nodupKeys_set {α : Type} {m : List (String × α)} (k : String) (v : α)
    (h : (mapKeys m).Nodup) : (mapKeys (mapSet m k v)).Nodup := by
  by_cases hk : k ∈ mapKeys m
  · rw [mapKeys_set_mem v hk]
    exact h
  · rw [mapSet_of_not_mem v hk]
    rw [show mapKeys (m ++ [(k, v)]) = mapKeys m ++ [k] from by simp [mapKeys]]
    simp [List.nodup_append, h, hk]

theorem nodupKeys_delete {α : Type} {m : List (String × α)} (k : String)
    (h : (mapKeys m).Nodup) : (mapKeys (mapDelete m k)).Nodup := by
  rw [mapKeys_delete]
  exact h.erase k

theorem fst_ne_of_mem_mapDelete {α : Type} {m : List (String × α)} {k : String}
    {p : String × α} (hnd : (mapKeys m).Nodup) (h : p ∈ mapDelete m k) :
    p.1 ≠ k := by
  induction m with
  | nil => simp [mapDelete] at h
  | cons q rest ih =>
    obtain ⟨k0, v0⟩ := q
    rw [show mapKeys ((k0, v0) :: rest) = k0 :: mapKeys rest from rfl] at hnd
    rw [List.nodup_cons] at hnd
    by_cases h0 : k0 = k
    · subst h0
      rw [show mapDelete ((k0, v0) :: rest) k0 = rest from by simp [mapDelete]] at h
      intro hp
      exact hnd.1 (by
        have : p.1 ∈ mapKeys rest := List.mem_map_of_mem Prod.fst h
        rwa [hp] at this)
    · rw [show mapDelete ((k0, v0) :: rest) k = (k0, v0) :: mapDelete rest k from by
        simp [mapDelete, h0]] at h
      rcases List.mem_cons.1 h with h1 | h1
      · rw [h1]
        exact h0
      · exact ih hnd.2 h1

/-- The lease side of the invariant, parameterized by the two relevant
components. -/
def leaseOk (w : List (String × WorkItem)) (p : String × Lease) : Bool :=
  match mapGet w p.1 with
  | some item => !item.state.isTerminal
  | none => false

def leasesOkay (w : List (String × WorkItem)) (ls : List (String × Lease)) : Prop :=
  ∀ p ∈ ls, leaseOk w p = true

/-- The well-formedness (distinct map keys) side of the invariant. -/
def KernelWF (k : HarnessKernel) : Prop :=
  (mapKeys k.workItems).Nodup ∧ (mapKeys k.leases).Nodup ∧
    (mapKeys k.handoffs).Nodup

/-- Every stored lease points at a registered, non-terminal work item. -/
def LeaseInv (k : HarnessKernel) : Prop :=
  leasesOkay k.workItems k.leases

theorem leasesOkay_set_item {w : List (String × WorkItem)}
    {ls : List (String × Lease)} {id : String} {item2 : WorkItem}
    (h : leasesOkay w ls) (h2 : item2.state.isTerminal = false) :
    leasesOkay (mapSet w id item2) ls := by
  intro p hp
  by_cases hid : p.1 = id
  · rw [leaseOk, hid, mapGet_set_self]
    simp [h2]
  · rw [leaseOk, mapGet_set_ne _ hid]
    exact h p hp

theorem leasesOkay_delete {w : List (String × WorkItem)}
    {ls : List (String × Lease)} (x : String) (h : leasesOkay w ls) :
    leasesOkay w (mapDelete ls x) := by
  intro p hp
  exact h p ((mapDelete_sublist ls x).mem hp)

theorem leasesOkay_set_lease {w : List (String × WorkItem)}
    {ls : List (String × Lease)} {id : String} {lease : Lease} {item : WorkItem}
    (h : leasesOkay w ls) (hget : mapGet w id = some item)
    (hterm : item.state.isTerminal = false) :
    leasesOkay w (mapSet ls id lease) := by
  intro p hp
  rcases mem_of_mem_mapSet hp with h1 | h1
  · rw [h1]
    simp [leaseOk, hget, hterm]
  · exact h p h1

theorem isTerminal_false_of_not_cond {next : WorkItemState}
    (h : ¬(next = WorkItemState.completed ∨ next = WorkItemState.failed ∨
      next = WorkItemState.cancelled)) : next.isTerminal = false := by
  cases next <;> simp_all [WorkItemState.isTerminal]

theorem isTerminal_true_of_cond {next : WorkItemState}
    (h : next = WorkItemState.completed ∨ next = WorkItemState.failed ∨
      next = WorkItemState.cancelled) : next.isTerminal = true := by
  rcases h with h | h | h <;> subst h <;> rfl

theorem transitionWorkItem_preserves (k : HarnessKernel) (nowMs : Nat)
    (id : String) (next : WorkItemState) (opts : TransitionOptions)
    (hwf : KernelWF k) (hinv : LeaseInv k) :
    KernelWF (k.transitionWorkItem nowMs id next opts).2 ∧
    LeaseInv (k.transitionWorkItem nowMs id next opts).2 := by
  simp only [HarnessKernel.transitionWorkItem]
  split
  · exact ⟨hwf, hinv⟩
  · next item hsome =>
    by_cases hsame : item.state = next
    · rw [if_pos hsame]
      exact ⟨hwf, hinv⟩
    · rw [if_neg hsame]
      by_cases hmem : next ∈ ALLOWED_TRANSITIONS item.state
      · rw [if_pos hmem]
        dsimp only
        constructor
        · refine ⟨?_, ?_, ?_⟩
          · rw [pushTrace_workItems]
            split
            · exact nodupKeys_set _ _ hwf.1
            · exact nodupKeys_set _ _ hwf.1
          · rw [pushTrace_leases]
            split
            · exact nodupKeys_delete _ hwf.2.1
            · exact hwf.2.1
          · rw [pushTrace_handoffs]
            split
            · exact hwf.2.2
            · exact hwf.2.2
        · dsimp only [LeaseInv]
          rw [pushTrace_workItems, pushTrace_leases]
          split
          · next hc =>
            intro p hp
            have hne := fst_ne_of_mem_mapDelete hwf.2.1 hp
            rw [leaseOk, mapGet_set_ne _ hne]
            exact hinv p ((mapDelete_sublist _ _).mem hp)
          · next hc =>
            exact leasesOkay_set_item hinv (isTerminal_false_of_not_cond hc)
      · rw [if_neg hmem]
        exact ⟨hwf, hinv⟩

theorem releaseLease_preserves (k : HarnessKernel) (nowMs : Nat)
    (a b r : String) (hwf : KernelWF k) (hinv : LeaseInv k) :
    KernelWF (k.releaseLease nowMs a b r).2 ∧
    LeaseInv (k.releaseLease nowMs a b r).2 := by
  simp only [HarnessKernel.releaseLease]
  split
  · exact ⟨hwf, hinv⟩
  · next item hsome =>
    split
    · exact ⟨hwf, hinv⟩
    · next lease hl =>
      split
      · exact ⟨hwf, hinv⟩
      · dsimp only
        constructor
        · refine ⟨?_, ?_, ?_⟩
          · rw [pushTrace_workItems]
            exact hwf.1
          · rw [pushTrace_leases]
            exact nodupKeys_delete _ hwf.2.1
          · rw [pushTrace_handoffs]
            exact hwf.2.2
        · dsimp only [LeaseInv]
          rw [pushTrace_workItems, pushTrace_leases]
          exact leasesOkay_delete _ hinv

theorem getLease_frame (k : HarnessKernel) (nowMs : Nat) (id : String) :
    (k.getLease nowMs id).2.workItems = k.workItems ∧
    ((k.getLease nowMs id).2.leases = k.leases ∨
      (k.getLease nowMs id).2.leases = mapDelete k.leases id) ∧
    (k.getLease nowMs id).2.handoffs = k.handoffs := by
  rcases hm : mapGet k.leases id with _ | lease
  · refine ⟨?_, Or.inl ?_, ?_⟩ <;> simp [HarnessKernel.getLease, hm]
  · by_cases he : lease.expiresAt ≤ nowMs
    · refine ⟨?_, Or.inr ?_, ?_⟩ <;> simp [HarnessKernel.getLease, hm, he]
    · refine ⟨?_, Or.inl ?_, ?_⟩ <;> simp [HarnessKernel.getLease, hm, he]

theorem getLease_preserves (k : HarnessKernel) (nowMs : Nat) (id : String)
    (hwf : KernelWF k) (hinv : LeaseInv k) :
    KernelWF (k.getLease nowMs id).2 ∧ LeaseInv (k.getLease nowMs id).2 := by
  obtain ⟨hgw, hgl, hgh⟩ := getLease_frame k nowMs id
  constructor
  · refine ⟨?_, ?_, ?_⟩
    · rw [hgw]; exact hwf.1
    · rcases hgl with h | h
      · rw [h]; exact hwf.2.1
      · rw [h]; exact nodupKeys_delete _ hwf.2.1
    · rw [hgh]; exact hwf.2.2
  · dsimp only [LeaseInv]
    rw [hgw]
    rcases hgl with h | h
    · rw [h]; exact hinv
    · rw [h]; exact leasesOkay_delete _ hinv

theorem registerWorkItem_preserves (k : HarnessKernel) (nowMs : Nat)
    (input : RegisterWorkItemInput) (hwf : KernelWF k) (hinv : LeaseInv k) :
    KernelWF (k.registerWorkItem nowMs input).2 ∧
    LeaseInv (k.registerWorkItem nowMs input).2 := by
  simp only [HarnessKernel.registerWorkItem]
  split
  · exact ⟨hwf, hinv⟩
  · split
    · constructor
      · exact ⟨nodupKeys_set _ _ hwf.1, hwf.2.1, hwf.2.2⟩
      · exact leasesOkay_set_item hinv rfl
    · constructor
      · exact ⟨nodupKeys_set _ _ hwf.1, hwf.2.1, hwf.2.2⟩
      · exact leasesOkay_set_item hinv rfl

theorem getLease_some_spec {k : HarnessKernel} {nowMs : Nat} {id : String}
    {lease : Lease} (h : (k.getLease nowMs id).1 = some lease) :
    mapGet k.leases id = some lease ∧ (k.getLease nowMs id).2 = k := by
  rcases hm : mapGet k.leases id with _ | l0
  · simp [HarnessKernel.getLease, hm] at h
  · by_cases he : l0.expiresAt ≤ nowMs
    · simp [HarnessKernel.getLease, hm, he] at h
    · have h0 : l0 = lease := by simpa [HarnessKernel.getLease, hm, he] using h
      subst h0
      refine ⟨rfl, ?_⟩
      simp [HarnessKernel.getLease, hm, he]

theorem heartbeatLease_preserves (k : HarnessKernel) (nowMs : Nat)
    (id holder : String) (hwf : KernelWF k) (hinv : LeaseInv k) :
    KernelWF (k.heartbeatLease nowMs id holder).2 ∧
    LeaseInv (k.heartbeatLease nowMs id holder).2 := by
  simp only [HarnessKernel.heartbeatLease]
  split
  · exact ⟨hwf, hinv⟩
  · next item hsome =>
    split
    · exact getLease_preserves k nowMs id hwf hinv
    · next lease hl =>
      by_cases hh : lease.holder ≠ holder
      · rw [if_pos hh]
        exact getLease_preserves k nowMs id hwf hinv
      · rw [if_neg hh]
        obtain ⟨hm, hk⟩ := getLease_some_spec hl
        rw [hk]
        have hterm : item.state.isTerminal = false := by
          have h0 := hinv (id, lease) (mem_of_mapGet_eq_some hm)
          simpa [leaseOk, hsome] using h0
        constructor
        · exact ⟨hwf.1, nodupKeys_set _ _ hwf.2.1, hwf.2.2⟩
        · exact leasesOkay_set_lease hinv hsome hterm

theorem store_branch_preserves (k1 : HarnessKernel) (nowMs : Nat)
    (workItemId : String) (ls : Lease) (item : WorkItem)
    (opts : TransitionOptions) (hwf : KernelWF k1) (hinv : LeaseInv k1)
    (hitem : mapGet k1.workItems workItemId = some item)
    (hterm : item.state.isTerminal = false) :
    KernelWF (if item.state = WorkItemState.pending then
        (HarnessKernel.transitionWorkItem
          { k1 with leases := mapSet k1.leases workItemId ls }
          nowMs workItemId WorkItemState.leased opts).2
      else { k1 with leases := mapSet k1.leases workItemId ls }) ∧
    LeaseInv (if item.state = WorkItemState.pending then
        (HarnessKernel.transitionWorkItem
          { k1 with leases := mapSet k1.leases workItemId ls }
          nowMs workItemId WorkItemState.leased opts).2
      else { k1 with leases := mapSet k1.leases workItemId ls }) := by
  have hk2 : KernelWF { k1 with leases := mapSet k1.leases workItemId ls } ∧
      LeaseInv { k1 with leases := mapSet k1.leases workItemId ls } :=
    ⟨⟨hwf.1, nodupKeys_set _ _ hwf.2.1, hwf.2.2⟩,
      leasesOkay_set_lease hinv hitem hterm⟩
  by_cases hp : item.state = WorkItemState.pending
  · rw [if_pos hp]
    exact transitionWorkItem_preserves _ nowMs workItemId WorkItemState.leased
      opts hk2.1 hk2.2
  · rw [if_neg hp]
    exact hk2

theorem acquireLease_preserves (k : HarnessKernel) (nowMs : Nat)
    (id holder : String) (ttlMs : Nat) (hwf : KernelWF k) (hinv : LeaseInv k)
    (hsafe : ∀ item, mapGet k.workItems id = some item →
      item.state.isTerminal = false) :
    KernelWF (k.acquireLease nowMs id holder ttlMs).2 ∧
    LeaseInv (k.acquireLease nowMs id holder ttlMs).2 := by
  obtain ⟨hgw, hgl2, hgh⟩ := getLease_frame k nowMs id
  have hga := getLease_preserves k nowMs id hwf hinv
  simp only [HarnessKernel.acquireLease]
  split
  · exact ⟨hwf, hinv⟩
  · next item hsome =>
    split
    · exact ⟨hwf, hinv⟩
    · have hitem2 : mapGet (k.getLease nowMs id).2.workItems id = some item := by
        rw [hgw]; exact hsome
      have hterm := hsafe item hsome
      split
      · next active hactive =>
        split
        · exact hga
        · exact store_branch_preserves (k.getLease nowMs id).2 nowMs id
            { workItemId := id, holder := jsTrim holder,
              acquiredAt := active.acquiredAt, heartbeatAt := nowMs,
              expiresAt := nowMs + max 1000 ttlMs, ttlMs := max 1000 ttlMs }
            item
            { agent := some (jsTrim holder), reason := some "lease acquired",
              data := none }
            hga.1 hga.2 hitem2 hterm
      · exact store_branch_preserves (k.getLease nowMs id).2 nowMs id
          { workItemId := id, holder := jsTrim holder,
            acquiredAt := nowMs, heartbeatAt := nowMs,
            expiresAt := nowMs + max 1000 ttlMs, ttlMs := max 1000 ttlMs }
          item
          { agent := some (jsTrim holder), reason := some "lease acquired",
            data := none }
          hga.1 hga.2 hitem2 hterm

theorem transRelease_preserves (k : HarnessKernel) (n1 n2 : Nat) (id : String)
    (next : WorkItemState) (opts : TransitionOptions) (a b : String)
    (hwf : KernelWF k) (hinv : LeaseInv k) :
    KernelWF ((k.transitionWorkItem n1 id next opts).2.releaseLease n2 id a b).2 ∧
    LeaseInv ((k.transitionWorkItem n1 id next opts).2.releaseLease n2 id a b).2 := by
  have h1 := transitionWorkItem_preserves k n1 id next opts hwf hinv
  exact releaseLease_preserves _ n2 id a b h1.1 h1.2

theorem transReleaseHandoff_preserves (k : HarnessKernel) (nowMs : Nat)
    (id : String) (next : WorkItemState) (opts : TransitionOptions)
    (a b : String) (h : Handoff) (hwf : KernelWF k) (hinv : LeaseInv k) :
    KernelWF { ((k.transitionWorkItem nowMs id next opts).2.releaseLease
        nowMs id a b).2 with
      handoffs := mapSet ((k.transitionWorkItem nowMs id next opts).2.releaseLease
        nowMs id a b).2.handoffs id h } ∧
    LeaseInv { ((k.transitionWorkItem nowMs id next opts).2.releaseLease
        nowMs id a b).2 with
      handoffs := mapSet ((k.transitionWorkItem nowMs id next opts).2.releaseLease
        nowMs id a b).2.handoffs id h } := by
  have h2 := transRelease_preserves k nowMs nowMs id next opts a b hwf hinv
  exact ⟨⟨h2.1.1, h2.1.2.1, nodupKeys_set _ _ h2.1.2.2⟩, h2.2⟩

theorem completeWithHandoff_preserves (digest : String → String)
    (k : HarnessKernel) (nowMs : Nat) (id : String)
    (input : CompleteHandoffInput) (hwf : KernelWF k) (hinv : LeaseInv k) :
    KernelWF (HarnessKernel.completeWithHandoff digest k nowMs id input).2 ∧
    LeaseInv (HarnessKernel.completeWithHandoff digest k nowMs id input).2 := by
  simp only [HarnessKernel.completeWithHandoff]
  split
  · exact ⟨hwf, hinv⟩
  · repeat' split
    all_goals
      first
        | exact transitionWorkItem_preserves k nowMs id _ _ hwf hinv
        | exact transReleaseHandoff_preserves k nowMs id _ _ input.fromAgent _ _
            hwf hinv

theorem cancelWorkItem_preserves (k : HarnessKernel) (nowMs : Nat)
    (id a r : String) (hwf : KernelWF k) (hinv : LeaseInv k) :
    KernelWF (k.cancelWorkItem nowMs id a r).2 ∧
    LeaseInv (k.cancelWorkItem nowMs id a r).2 := by
  simp only [HarnessKernel.cancelWorkItem]
  split
  · exact transitionWorkItem_preserves k nowMs id _ _ hwf hinv
  · exact transRelease_preserves k nowMs nowMs id _ _ a r hwf hinv

theorem failWorkItem_preserves (k : HarnessKernel) (nowMs : Nat)
    (id a r : String) (hwf : KernelWF k) (hinv : LeaseInv k) :
    KernelWF (k.failWorkItem nowMs id a r).2 ∧
    LeaseInv (k.failWorkItem nowMs id a r).2 := by
  simp only [HarnessKernel.failWorkItem]
  split
  · exact transitionWorkItem_preserves k nowMs id _ _ hwf hinv
  · exact transRelease_preserves k nowMs nowMs id _ _ a r hwf hinv

theorem mapGet_delete_self {α : Type} {m : List (String × α)}
    (hn : (mapKeys m).Nodup) (k : String) :
    mapGet (mapDelete m k) k = none := by
  apply mapGet_eq_none_of_not_mem
  rw [mapKeys_delete]
  intro hmem
  exact (List.Nodup.mem_erase_iff hn).mp hmem |>.1 rfl

theorem transition_terminal_clears {k : HarnessKernel}
    (hwf : KernelWF k) (hinv : LeaseInv k) (nowMs : Nat) (id : String)
    (next : WorkItemState) (opts : TransitionOptions)
    (hterm : next.isTerminal = true)
    (hok : (k.transitionWorkItem nowMs id next opts).1.ok = true) :
    mapGet (k.transitionWorkItem nowMs id next opts).2.leases id = none := by
  rcases hm : mapGet k.workItems id with _ | item
  · rw [transitionWorkItem_unknown hm] at hok
    simp at hok
  · by_cases hsame : item.state = next
    · rw [transitionWorkItem_noop hm hsame]
      rcases hl : mapGet k.leases id with _ | l
      · exact rfl
      · exfalso
        have h0 := hinv (id, l) (mem_of_mapGet_eq_some hl)
        simp [leaseOk, hm] at h0
        rw [hsame, hterm] at h0
        cases h0
    · by_cases hmem : next ∈ ALLOWED_TRANSITIONS item.state
      · rw [transitionWorkItem_ok hm hsame hmem]
        have hcond : next = WorkItemState.completed ∨
            next = WorkItemState.failed ∨ next = WorkItemState.cancelled := by
          cases next <;> simp_all [WorkItemState.isTerminal]
        dsimp only
        rw [pushTrace_leases, if_pos hcond]
        dsimp only
        exact mapGet_delete_self hwf.2.1 id
      · rw [transitionWorkItem_invalid hm hsame hmem] at hok
        simp at hok

/-- One call against the kernel's public mutating API, with its inputs
(time is supplied per call, as `Date.now()` is read inside each method). -/
inductive KernelOp where
  | register (input : RegisterWorkItemInput)
  | acquire (id holder : String) (ttlMs : Nat)
  | heartbeat (id holder : String)
  | release (id holder reason : String)
  | transition (id : String) (next : WorkItemState) (opts : TransitionOptions)
  | complete (id : String) (input : CompleteHandoffInput)
  | cancel (id agent reason : String)
  | fail (id agent reason : String)

def kernelStep (digest : String → String) (nowMs : Nat)
    (k : HarnessKernel) : KernelOp → HarnessKernel
  | .register input => (k.registerWorkItem nowMs input).2
  | .acquire id holder ttl => (k.acquireLease nowMs id holder ttl).2
  | .heartbeat id holder => (k.heartbeatLease nowMs id holder).2
  | .release id holder reason => (k.releaseLease nowMs id holder reason).2
  | .transition id next opts => (k.transitionWorkItem nowMs id next opts).2
  | .complete id input =>
    (HarnessKernel.completeWithHandoff digest k nowMs id input).2
  | .cancel id agent reason => (k.cancelWorkItem nowMs id agent reason).2
  | .fail id agent reason => (k.failWorkItem nowMs id agent reason).2

/-- `true` unless the op acquires a lease on an id that is registered and
already in a terminal state (the repaired side condition for the claim). -/
def acquireSafeB (k : HarnessKernel) : KernelOp → Bool
  | .acquire id _ _ =>
    match mapGet k.workItems id with
    | some item => !item.state.isTerminal
    | none => true
  | _ => true

def runOps (digest : String → String) (k : HarnessKernel) :
    List (Nat × KernelOp) → HarnessKernel
  | [] => k
  | (n, op) :: rest => runOps digest (kernelStep digest n k op) rest

def safeTraceB (digest : String → String) (k : HarnessKernel) :
    List (Nat × KernelOp) → Bool
  | [] => true
  | (n, op) :: rest =>
    acquireSafeB k op && safeTraceB digest (kernelStep digest n k op) rest

theorem kernelStep_preserves (digest : String → String) (nowMs : Nat)
    (k : HarnessKernel) (op : KernelOp) (hwf : KernelWF k) (hinv : LeaseInv k)
    (hsafe : acquireSafeB k op = true) :
    KernelWF (kernelStep digest nowMs k op) ∧
    LeaseInv (kernelStep digest nowMs k op) := by
  cases op with
  | register input => exact registerWorkItem_preserves k nowMs input hwf hinv
  | acquire id holder ttl =>
    refine acquireLease_preserves k nowMs id holder ttl hwf hinv ?_
    intro item hitem
    simpa [acquireSafeB, hitem] using hsafe
  | heartbeat id holder => exact heartbeatLease_preserves k nowMs id holder hwf hinv
  | release id holder reason =>
    exact releaseLease_preserves k nowMs id holder reason hwf hinv
  | transition id next opts =>
    exact transitionWorkItem_preserves k nowMs id next opts hwf hinv
  | complete id input =>
    exact completeWithHandoff_preserves digest k nowMs id input hwf hinv
  | cancel id a r => exact cancelWorkItem_preserves k nowMs id a r hwf hinv
  | fail id a r => exact failWorkItem_preserves k nowMs id a r hwf hinv

theorem runOps_preserves (digest : String → String) (ops : List (Nat × KernelOp))
    (k : HarnessKernel) (hwf : KernelWF k) (hinv : LeaseInv k)
    (hsafe : safeTraceB digest k ops = true) :
    KernelWF (runOps digest k ops) ∧ LeaseInv (runOps digest k ops) := by
  induction ops generalizing k with
  | nil => exact ⟨hwf, hinv⟩
  | cons p rest ih =>
    obtain ⟨n, op⟩ := p
    simp only [safeTraceB] at hsafe
    have h2 : acquireSafeB k op = true ∧
        safeTraceB digest (kernelStep digest n k op) rest = true := by
      simpa using hsafe
    have hstep := kernelStep_preserves digest n k op hwf hinv h2.1
    simp only [runOps]
    exact ih (kernelStep digest n k op) hstep.1 hstep.2 h2.2

instance (k : HarnessKernel) : Decidable (KernelWF k) :=
  inferInstanceAs (Decidable ((mapKeys k.workItems).Nodup ∧
    (mapKeys k.leases).Nodup ∧ (mapKeys k.handoffs).Nodup))

instance (k : HarnessKernel) : Decidable (LeaseInv k) :=
  inferInstanceAs (Decidable (∀ p ∈ k.leases, leaseOk k.workItems p = true))

/-- C3 (corrected): the claim's final clause — "no operation creates a lease
on a terminal item" — is false: `acquireLease` never checks the item's state
(see `c3_lease_terminal_counterexample`).  Amended to runs in which every
`acquireLease` call targets an item that is not already terminal
(`safeTraceB`), the invariant does hold in every reachable state: every
stored lease names a registered, non-terminal work item, and any successful
transition into a terminal state leaves no lease for that item. -/
theorem c3_lease_terminal_invariant (digest : String → String)
    (k0 : HarnessKernel) (ops : List (Nat × KernelOp))
    (hwf : KernelWF k0) (hinv : LeaseInv k0)
    (hsafe : safeTraceB digest k0 ops = true) :
    (∀ p ∈ (runOps digest k0 ops).leases, ∃ item,
        mapGet (runOps digest k0 ops).workItems p.1 = some item ∧
        item.state.isTerminal = false) ∧
    (∀ nowMs id next opts, next.isTerminal = true →
        ((runOps digest k0 ops).transitionWorkItem nowMs id next opts).1.ok =
          true →
        mapGet ((runOps digest k0 ops).transitionWorkItem nowMs id next
          opts).2.leases id = none) := by
  have h := runOps_preserves digest ops k0 hwf hinv hsafe
  constructor
  · intro p hp
    have h0 := h.2 p hp
    rcases hw : mapGet (runOps digest k0 ops).workItems p.1 with _ | item
    · exfalso
      simp [leaseOk, hw] at h0
    · exact ⟨item, rfl, by simpa [leaseOk, hw] using h0⟩
  · intro nowMs id next opts hterm hok
    exact transition_terminal_clears h.1 h.2 nowMs id next opts hterm hok

def c3Kernel : HarnessKernel := mkHarnessKernel 60000 2000

def c3RegisterInput : RegisterWorkItemInput :=
  { id := "w1", runId := some "r1", title := "t", goal := "g",
    ownerAgent := some "alice", inputs := none }

def c3Ops : List (Nat × KernelOp) :=
  [(0, .register c3RegisterInput),
   (1, .acquire "w1" "bob" 60000),
   (2, .transition "w1" .running noTransitionOptions),
   (3, .complete "w1"
     { fromAgent := "bob", toAgent := none, summary := "s",
       nextAction := "n", evals := none })]

theorem c3_lease_terminal_invariant_witness :
    safeTraceB (fun s => s) c3Kernel c3Ops = true ∧
    (∀ p ∈ (runOps (fun s => s) c3Kernel c3Ops).leases, ∃ item,
        mapGet (runOps (fun s => s) c3Kernel c3Ops).workItems p.1 = some item ∧
        item.state.isTerminal = false) :=
  ⟨by decide,
    (c3_lease_terminal_invariant (fun s => s) c3Kernel c3Ops
      (by decide) (by decide) (by decide)).1⟩

def c3BadOps : List (Nat × KernelOp) :=
  [(0, .register c3RegisterInput),
   (1, .cancel "w1" "alice" "stop"),
   (2, .acquire "w1" "bob" 60000)]

/-- C3 counterexample: register an item, cancel it (terminal state
`cancelled`), then acquire a lease on it.  The acquire succeeds and stores a
lease on the cancelled item, so the "a Lease implies its WorkItem is not
terminal" invariant is violated by a reachable state. -/
theorem c3_lease_terminal_counterexample :
    ((runOps (fun s => s) c3Kernel c3BadOps).workItems.map
        (fun p => (p.1, p.2.state)) = [("w1", WorkItemState.cancelled)]) ∧
    ((runOps (fun s => s) c3Kernel c3BadOps).leases.map
        (fun p => (p.1, p.2.holder, p.2.expiresAt)) = [("w1", "bob", 60002)]) ∧
    ¬ LeaseInv (runOps (fun s => s) c3Kernel c3BadOps) := by
  decide

/-! ## Condition engine (`lib/primitives/condition-engine.ts`)

Tokens and AST nodes carry their literal values as `JSValue` (a
`ConditionLiteral` is a string, number, boolean or null).  The source
tokenizer walks the string with a cursor and the parser walks the token
array with a cursor; both are embedded as fuel-indexed recursions whose
fuel is ample for the input length, so the "fuel exhausted" branches are
unreachable for the fuel supplied by the entry points.  Thrown errors
become `Except.error` of the thrown message. -/

inductive Token where
  | paren (value : Char) (index : Nat)
  | op (value : String) (index : Nat)
  | lit (value : JSValue) (index : Nat)
  | ident (value : String) (index : Nat)
  | eof (index : Nat)

def Token.index : Token → Nat
  | .paren _ i => i
  | .op _ i => i
  | .lit _ i => i
  | .ident _ i => i
  | .eof i => i

def Token.isOpVal (t : Token) (v : String) : Bool :=
  match t with
  | .op w _ => w = v
  | _ => false

def Token.comparisonOp : Token → Option String
  | .op w _ =>
    if w = "==" ∨ w = "!=" ∨ w = ">" ∨ w = ">=" ∨ w = "<" ∨ w = "<=" then some w
    else none
  | _ => none

def Token.isCloseParen : Token → Bool
  | .paren v _ => v = ')'
  | _ => false

/-- `{ type: "unary" }` carries only the fixed operator `"!"`, so the
operator field is dropped. -/
inductive ConditionNode where
  | lit (value : JSValue)
  | ident (path : String)
  | unary (argument : ConditionNode)
  | binary (operator : String) (left right : ConditionNode)

/-- `readString` body: scans after the opening quote, returning the
collected text and the number of characters consumed (closing quote
included).  A backslash copies the next character verbatim; running off
the end (also mid-escape) is `unterminated string literal`. -/
def readStringAux (quote : Char) : List Char → List Char →
    Except String (String × Nat)
  | [], _ => .error "unterminated string literal"
  | c :: rest, acc =>
    if c = quote then .ok (String.mk acc.reverse, 1)
    else if c = '\\' then
      match rest with
      | [] => .error "unterminated string literal"
      | n :: rest2 =>
        match readStringAux quote rest2 (n :: acc) with
        | .ok (s, k) => .ok (s, k + 2)
        | .error e => .error e
    else
      match readStringAux quote rest (c :: acc) with
      | .ok (s, k) => .ok (s, k + 1)
      | .error e => .error e

def isTwoCharOp (a b : Char) : Bool :=
  (a = '&' ∧ b = '&') ∨ (a = '|' ∧ b = '|') ∨ (a = '=' ∧ b = '=') ∨
  (a = '!' ∧ b = '=') ∨ (a = '>' ∧ b = '=') ∨ (a = '<' ∧ b = '=')

def digitsToNat (cs : List Char) : Nat :=
  cs.foldl (fun acc c => acc * 10 + (c.toNat - 48)) 0

def ratOfParts (neg : Bool) (intPart fracPart : List Char) : Rat :=
  let n : Nat := digitsToNat intPart * 10 ^ fracPart.length + digitsToNat fracPart
  let num : Int := if neg then -(n : Int) else (n : Int)
  mkRat num (10 ^ fracPart.length)

/-- The number regex `-?\d+(?:\.\d+)?` applied at the start of `cs`:
the parsed value and the match length, or `none` when it does not match. -/
def scanNumber (cs : List Char) : Option (Rat × Nat) :=
  let p : Bool × List Char :=
    match cs with
    | '-' :: t => (true, t)
    | _ => (false, cs)
  let d1 := p.2.takeWhile Char.isDigit
  if d1.isEmpty then none
  else
    let cs2 := p.2.drop d1.length
    let f : List Char × Nat :=
      match cs2 with
      | '.' :: t =>
        let d2 := t.takeWhile Char.isDigit
        if d2.isEmpty then ([], 0) else (d2, d2.length + 1)
      | _ => ([], 0)
    some (ratOfParts p.1 d1 f.1, (if p.1 then 1 else 0) + d1.length + f.2)

def tokenizeAux : Nat → List Char → Nat → Except String (List Token)
  | 0, _, _ => .error "tokenizer fuel exhausted"
  | _ + 1, [], pos => .ok [Token.eof pos]
  | fuel + 1, c :: rest, pos =>
    if jsIsSpaceChar c then tokenizeAux fuel rest (pos + 1)
    else
      let two : Option (Char × List Char) :=
        match rest with
        | c2 :: rest2 => if isTwoCharOp c c2 then some (c2, rest2) else none
        | [] => none
      match two with
      | some (c2, rest2) =>
        (match tokenizeAux fuel rest2 (pos + 2) with
         | .error e => .error e
         | .ok ts => .ok (Token.op (String.mk [c, c2]) pos :: ts))
      | none =>
        if c = '!' ∨ c = '>' ∨ c = '<' then
          match tokenizeAux fuel rest (pos + 1) with
          | .error e => .error e
          | .ok ts => .ok (Token.op (String.mk [c]) pos :: ts)
        else if c = '(' ∨ c = ')' then
          match tokenizeAux fuel rest (pos + 1) with
          | .error e => .error e
          | .ok ts => .ok (Token.paren c pos :: ts)
        else if c = '\'' ∨ c = '"' then
          match readStringAux c rest [] with
          | .error e => .error e
          | .ok s =>
            match tokenizeAux fuel (rest.drop s.2) (pos + 1 + s.2) with
            | .error e => .error e
            | .ok ts => .ok (Token.lit (.str s.1) pos :: ts)
        else if c = '-' ∨ c.isDigit then
          match scanNumber (c :: rest) with
          | none => .error ("invalid number at " ++ toString pos)
          | some v =>
            match tokenizeAux fuel (rest.drop (v.2 - 1)) (pos + v.2) with
            | .error e => .error e
            | .ok ts => .ok (Token.lit (.num v.1) pos :: ts)
        else if c.isAlpha ∨ c = '_' then
          let idChars := c :: rest.takeWhile
            (fun ch => ch.isAlphanum ∨ ch = '_' ∨ ch = '.')
          let name := String.mk idChars
          let tok : Token :=
            if name = "true" then Token.lit (.bool true) pos
            else if name = "false" then Token.lit (.bool false) pos
            else if name = "null" then Token.lit .null pos
            else Token.ident name pos
          match tokenizeAux fuel (rest.drop (idChars.length - 1))
              (pos + idChars.length) with
          | .error e => .error e
          | .ok ts => .ok (tok :: ts)
        else
          .error ("unexpected token '" ++ String.mk [c] ++ "' at " ++
            toString pos)

def tokenize (s : String) : Except String (List Token) :=
  tokenizeAux (s.data.length + 1) s.data 0

/-- `this.tokens[Math.min(this.cursor, this.tokens.length - 1)]`; the token
array always ends in `eof`, so the default is never used. -/
def currentTok (tokens : List Token) (cursor : Nat) : Token :=
  tokens.getD (min cursor (tokens.length - 1)) (Token.eof 0)

/-- The parser's mutually recursive methods (`parseOr` … `parsePrimary`,
with each `while` loop as a `…Loop` state carrying the node built so far)
folded into one function on a phase marker, so the recursion is structural
on the fuel and the definition evaluates. -/
inductive ParsePhase where
  | orP
  | orLoop (node : ConditionNode)
  | andP
  | andLoop (node : ConditionNode)
  | compareP
  | compareLoop (node : ConditionNode)
  | unaryP
  | primaryP

def parseGo : Nat → ParsePhase → List Token → Nat →
    Except String (ConditionNode × Nat)
  | 0, _, _, _ => .error "parser fuel exhausted"
  | fuel + 1, phase, tokens, cursor =>
    match phase with
    | .orP =>
      match parseGo fuel .andP tokens cursor with
      | .error e => .error e
      | .ok r => parseGo fuel (.orLoop r.1) tokens r.2
    | .orLoop node =>
      if (currentTok tokens cursor).isOpVal "||" then
        match parseGo fuel .andP tokens (cursor + 1) with
        | .error e => .error e
        | .ok r => parseGo fuel (.orLoop (.binary "||" node r.1)) tokens r.2
      else .ok (node, cursor)
    | .andP =>
      match parseGo fuel .compareP tokens cursor with
      | .error e => .error e
      | .ok r => parseGo fuel (.andLoop r.1) tokens r.2
    | .andLoop node =>
      if (currentTok tokens cursor).isOpVal "&&" then
        match parseGo fuel .compareP tokens (cursor + 1) with
        | .error e => .error e
        | .ok r => parseGo fuel (.andLoop (.binary "&&" node r.1)) tokens r.2
      else .ok (node, cursor)
    | .compareP =>
      match parseGo fuel .unaryP tokens cursor with
      | .error e => .error e
      | .ok r => parseGo fuel (.compareLoop r.1) tokens r.2
    | .compareLoop node =>
      match (currentTok tokens cursor).comparisonOp with
      | some opv =>
        match parseGo fuel .unaryP tokens (cursor + 1) with
        | .error e => .error e
        | .ok r => parseGo fuel (.compareLoop (.binary opv node r.1)) tokens r.2
      | none => .ok (node, cursor)
    | .unaryP =>
      if (currentTok tokens cursor).isOpVal "!" then
        match parseGo fuel .unaryP tokens (cursor + 1) with
        | .error e => .error e
        | .ok r => .ok (.unary r.1, r.2)
      else parseGo fuel .primaryP tokens cursor
    | .primaryP =>
      match currentTok tokens cursor with
      | .lit v _ => .ok (.lit v, cursor + 1)
      | .ident v _ => .ok (.ident v, cursor + 1)
      | .paren v i =>
        if v = '(' then
          match parseGo fuel .orP tokens (cursor + 1) with
          | .error e => .error e
          | .ok r =>
            let close := currentTok tokens r.2
            if close.isCloseParen then .ok (r.1, r.2 + 1)
            else .error ("missing closing parenthesis near " ++
              toString close.index)
        else .error ("unexpected token at " ++ toString i)
      | t => .error ("unexpected token at " ++ toString t.index)

def parserParse (tokens : List Token) : Except String ConditionNode :=
  match parseGo (8 * tokens.length + 16) .orP tokens 0 with
  | .error e => .error e
  | .ok r =>
    match currentTok tokens r.2 with
    | .eof _ => .ok r.1
    | t => .error ("unexpected token at " ++ toString t.index)

/-- One step of `resolvePath`'s reduce: falsy or non-object cursors give
`undefined`; object property lookup; array index lookup is modeled for
canonical decimal indices and `length`. -/
def resolveStep (cursor : JSValue) (part : String) : JSValue :=
  if !(jsTruthy cursor) then .undef
  else
    match cursor with
    | .obj fields =>
      match mapGet fields part with
      | some v => v
      | none => .undef
    | .arr elems =>
      if part = "length" then .num (elems.length : Rat)
      else
        match part.toNat? with
        | some n => if toString n = part then elems.getD n .undef else .undef
        | none => .undef
    | _ => JSValue.undef

/-- `path.split(".")`, written out so it evaluates: splitting a string on
the dot character (an empty string gives `[""]`, as in JS). -/
def splitDotAux : List Char → List Char → List String
  | [], acc => [String.mk acc.reverse]
  | c :: rest, acc =>
    if c = '.' then String.mk acc.reverse :: splitDotAux rest []
    else splitDotAux rest (c :: acc)

def resolvePath (context : List (String × JSValue)) (path : String) : JSValue :=
  (splitDotAux path.data []).foldl resolveStep (.obj context)

/-- `compare`: `==`/`!=` via `Object.is` (structural on the model), ordering
only between two numbers or two strings, anything else `false`. -/
def jsCompare (operator : String) (left right : JSValue) : Bool :=
  if operator = "==" then jsEq left right
  else if operator = "!=" then !(jsEq left right)
  else
    match left, right with
    | .num a, .num b =>
      if operator = ">" then decide (b < a)
      else if operator = ">=" then decide (b ≤ a)
      else if operator = "<" then decide (a < b)
      else decide (a ≤ b)
    | .str a, .str b =>
      if operator = ">" then decide (b < a)
      else if operator = ">=" then decide (b ≤ a)
      else if operator = "<" then decide (a < b)
      else decide (a ≤ b)
    | _, _ => false

def evalNode (context : List (String × JSValue)) : ConditionNode → JSValue
  | .lit v => v
  | .ident path => resolvePath context path
  | .unary arg => .bool (!(jsTruthy (evalNode context arg)))
  | .binary operator l r =>
    if operator = "&&" then
      .bool (jsTruthy (evalNode context l) && jsTruthy (evalNode context r))
    else if operator = "||" then
      .bool (jsTruthy (evalNode context l) || jsTruthy (evalNode context r))
    else .bool (jsCompare operator (evalNode context l) (evalNode context r))

structure ConditionValidationResult where
  valid : Bool
  errors : List String
deriving Repr, DecidableEq

structure ConditionEvaluationResult where
  passed : Bool
  reason : String
deriving Repr, DecidableEq

def ConditionEngine.parse (expression : String) : Except String ConditionNode :=
  let normalized := jsTrim expression
  if normalized = "" then .error "condition expression is empty"
  else
    match tokenize normalized with
    | .error e => .error e
    | .ok tokens => parserParse tokens

def ConditionEngine.validate (expression : String) : ConditionValidationResult :=
  match ConditionEngine.parse expression with
  | .ok _ => { valid := true, errors := [] }
  | .error e => { valid := false, errors := [e] }

def ConditionEngine.evaluate (expression : String)
    (context : List (String × JSValue)) : ConditionEvaluationResult :=
  match ConditionEngine.parse expression with
  | .ok ast =>
    let passed := jsTruthy (evalNode context ast)
    { passed := passed
      reason := if passed then "condition passed"
        else "condition evaluated to false" }
  | .error e => { passed := false, reason := e }

/-- C8: `evaluate` is total (a function in the model; every thrown error is
an `Except.error` of `parse` that `evaluate` catches): whenever `parse`
fails — including the empty expression, an unknown character, and an
unbalanced parenthesis, as in the three concrete cases — the result is
`passed := false` with the error message as reason; whenever `parse`
succeeds the result is the boolean coercion of the evaluated node, with
reason `condition passed` or `condition evaluated to false`. -/
theorem c8_condition_engine_evaluate (expression : String)
    (context : List (String × JSValue)) :
    (∀ e, ConditionEngine.parse expression = .error e →
      ConditionEngine.evaluate expression context =
        { passed := false, reason := e }) ∧
    (∀ ast, ConditionEngine.parse expression = .ok ast →
      ConditionEngine.evaluate expression context =
        { passed := jsTruthy (evalNode context ast)
          reason := if jsTruthy (evalNode context ast) then "condition passed"
            else "condition evaluated to false" }) ∧
    (jsTrim expression = "" →
      ConditionEngine.evaluate expression context =
        { passed := false, reason := "condition expression is empty" }) ∧
    ConditionEngine.evaluate "(flag" context =
      { passed := false, reason := "missing closing parenthesis near 5" } ∧
    ConditionEngine.evaluate "@" context =
      { passed := false, reason := "unexpected token '@' at 0" } := by
  refine ⟨?_, ?_, ?_, ?_, ?_⟩
  · intro e he
    simp [ConditionEngine.evaluate, he]
  · intro ast hast
    simp [ConditionEngine.evaluate, hast]
  · intro hempty
    simp [ConditionEngine.evaluate, ConditionEngine.parse, hempty]
  · rfl
  · rfl

theorem c8_condition_engine_evaluate_witness :
    ConditionEngine.evaluate "flag && score >= 2"
        [("flag", JSValue.bool true), ("score", JSValue.num 3)] =
      { passed := true, reason := "condition passed" } ∧
    ConditionEngine.evaluate "@" [] =
      { passed := false, reason := "unexpected token '@' at 0" } ∧
    ConditionEngine.evaluate " " [] =
      { passed := false, reason := "condition expression is empty" } := by
  refine ⟨?_, ?_, ?_⟩
  · rw [(c8_condition_engine_evaluate "flag && score >= 2"
      [("flag", JSValue.bool true), ("score", JSValue.num 3)]).2.1
      (ConditionNode.binary "&&" (.ident "flag")
        (.binary ">=" (.ident "score") (.lit (.num 2)))) rfl]
    decide
  · exact (c8_condition_engine_evaluate "@" []).1
      "unexpected token '@' at 0" rfl
  · exact (c8_condition_engine_evaluate " " []).2.2.1 rfl

example : ratOfParts false [Char.ofNat 50] [] = 2 := by decide
example : ratOfParts false [Char.ofNat 50] [] = 2 := by rfl
example : ratOfParts true [Char.ofNat 49] [Char.ofNat 53] = mkRat (-3) 2 := by decide
example : ConditionEngine.parse "2" = .ok (.lit (.num 2)) := rfl
example : jsCompare ">=" (JSValue.num 3) (JSValue.num 2) = true := by decide

/-! ## Policy engine (`lib/primitives/policy.ts`)

`Set<string>` appears only through `has` and `size > 0`, so `normalize` is
modeled as the trimmed/lowercased/filtered list without deduplication
(deduplication changes neither membership nor emptiness).  The tail of
`evaluatePolicy` (the `violations.length > 0` return split) is factored
into `decisionFrom`, and `request.agent?.trim().toLowerCase()` into
`normalizedAgent`. -/

structure PolicyRule where
  allowedAgents : Option (List String)
  deniedAgents : Option (List String)
  deniedTools : Option (List String)
  maxPromptChars : Option Rat
  deniedPatterns : Option (List String)
  requireTriggerSource : Option Bool
deriving Repr, DecidableEq

structure PolicyConfig where
  backgroundTask : Option PolicyRule
  loopTrigger : Option PolicyRule
deriving Repr, DecidableEq

inductive PolicyKind where
  | background_task
  | loop_trigger
deriving Repr, DecidableEq

structure PolicyRequest where
  kind : PolicyKind
  agent : Option String
  prompt : Option String
  requestedTools : Option (List String)
  triggerSource : Option String
deriving Repr, DecidableEq

structure PolicyDecision where
  allowed : Bool
  reason : Option String
  violations : List String
deriving Repr, DecidableEq

def normalize (values : Option (List String)) : List String :=
  ((values.getD []).map (fun v => jsToLower (jsTrim v))).filter
    (fun s => s ≠ "")

/-- `String.prototype.includes` on the model (char-level substring test). -/
def strIncludesAux (needle : List Char) : List Char → Bool
  | [] => needle.isEmpty
  | h :: t => needle.isPrefixOf (h :: t) || strIncludesAux needle t

def strIncludes (hay needle : String) : Bool :=
  strIncludesAux needle.data hay.data

def ruleFor (config : Option PolicyConfig) (kind : PolicyKind) :
    Option PolicyRule :=
  match kind with
  | .background_task => config.bind PolicyConfig.backgroundTask
  | .loop_trigger => config.bind PolicyConfig.loopTrigger

def normalizedAgent (request : PolicyRequest) : Option String :=
  request.agent.map (fun a => jsToLower (jsTrim a))

def decisionFrom (violations : List String) : PolicyDecision :=
  if violations.length > 0 then
    { allowed := false, reason := some "policy denied request",
      violations := violations }
  else { allowed := true, reason := none, violations := violations }

def evaluatePolicy (config : Option PolicyConfig)
    (request : PolicyRequest) : PolicyDecision :=
  match ruleFor config request.kind with
  | none => { allowed := true, reason := none, violations := [] }
  | some rule =>
    let agent := normalizedAgent request
    let allowedAgents := normalize rule.allowedAgents
    let deniedAgents := normalize rule.deniedAgents
    let v1 : List String :=
      if optionStrTruthy agent && !allowedAgents.isEmpty &&
          !allowedAgents.contains (agent.getD "") then
        ["agent not allowed: " ++ agent.getD ""]
      else []
    let v2 : List String :=
      if optionStrTruthy agent && deniedAgents.contains (agent.getD "") then
        ["agent denied: " ++ agent.getD ""]
      else []
    let deniedTools := normalize rule.deniedTools
    let toolViolations : List String :=
      (request.requestedTools.getD []).filterMap (fun rawTool =>
        let tool := jsToLower (jsTrim rawTool)
        if tool ≠ "" ∧ deniedTools.contains tool then
          some ("tool denied: " ++ tool)
        else none)
    let promptViolations : List String :=
      match rule.maxPromptChars with
      | some m =>
        if 0 < m then
          let promptLength := (request.prompt.getD "").length
          if m < (promptLength : Rat) then
            ["prompt too long: " ++ toString promptLength ++ " > " ++
              ratToString m]
          else []
        else []
      | none => []
    let patternViolations : List String :=
      (rule.deniedPatterns.getD []).filterMap (fun pattern =>
        let normalized := jsTrim pattern
        if normalized = "" then none
        else if strIncludes (jsToLower (request.prompt.getD ""))
            (jsToLower normalized) then
          some ("prompt matched denied pattern: " ++ normalized)
        else none)
    let triggerViolations : List String :=
      if rule.requireTriggerSource.getD false ∧
          request.kind = PolicyKind.loop_trigger then
        if jsTrim (request.triggerSource.getD "") = "" then
          ["trigger source required by policy"]
        else []
      else []
    decisionFrom (v1 ++ v2 ++ toolViolations ++ promptViolations ++
      patternViolations ++ triggerViolations)

theorem decisionFrom_empty (vs : List String) (h : vs = []) :
    (decisionFrom vs).allowed = true ∧ (decisionFrom vs).reason = none := by
  subst h
  exact ⟨rfl, rfl⟩

/-- C9 (corrected): the claim's parenthetical "(including requests whose
agent field is absent or empty)" is false — an absent or
whitespace-only agent is falsy after trimming, so the `agent && …` guard
skips the allow-list check entirely and such requests pass (see
`c9_policy_allow_list_counterexample`).  Amended to requests whose agent
is present and non-empty after trimming: when the rule's normalized
allow-list is non-empty and does not contain the normalized agent, the
decision is denied with the agent-not-allowed violation among the
accumulated violations and the generic reason; and any decision with zero
violations is allowed with no reason. -/
theorem c9_policy_allow_list (config : PolicyConfig) (rule : PolicyRule)
    (request : PolicyRequest) (a : String)
    (hrule : ruleFor (some config) request.kind = some rule)
    (hagent : normalizedAgent request = some a) (ha : a ≠ "")
    (hnonempty : normalize rule.allowedAgents ≠ [])
    (hnotmem : (normalize rule.allowedAgents).contains a = false) :
    ((evaluatePolicy (some config) request).allowed = false ∧
      (evaluatePolicy (some config) request).reason =
        some "policy denied request" ∧
      ("agent not allowed: " ++ a) ∈
        (evaluatePolicy (some config) request).violations) ∧
    (∀ cfg req, (evaluatePolicy cfg req).violations = [] →
      (evaluatePolicy cfg req).allowed = true ∧
      (evaluatePolicy cfg req).reason = none) := by
  constructor
  · simp only [evaluatePolicy]
    split
    · next hnone => rw [hrule] at hnone; cases hnone
    · next rule0 hsome =>
      rw [hrule] at hsome
      injection hsome with hi
      subst hi
      rw [hagent]
      have hne : (normalize rule.allowedAgents).isEmpty = false := by
        simpa [List.isEmpty_iff] using hnonempty
      have hmem : a ∉ normalize rule.allowedAgents := by
        simpa using hnotmem
      simp [optionStrTruthy, ha, hne, hmem, decisionFrom]
  · intro cfg req hv
    have hshape : evaluatePolicy cfg req =
        { allowed := true, reason := none, violations := [] } ∨
        ∃ vs, evaluatePolicy cfg req = decisionFrom vs := by
      simp only [evaluatePolicy]
      split
      · exact Or.inl rfl
      · exact Or.inr ⟨_, rfl⟩
    rcases hshape with h | ⟨vs, h⟩
    · rw [h]
      exact ⟨rfl, rfl⟩
    · rw [h] at hv ⊢
      refine decisionFrom_empty vs ?_
      by_cases hvs : vs.length > 0
      · rw [decisionFrom, if_pos hvs] at hv
        exact hv
      · rw [decisionFrom, if_neg hvs] at hv
        exact hv

def c9Rule : PolicyRule :=
  { allowedAgents := some ["alice"], deniedAgents := none,
    deniedTools := none, maxPromptChars := none, deniedPatterns := none,
    requireTriggerSource := none }

def c9Config : PolicyConfig :=
  { backgroundTask := some c9Rule, loopTrigger := none }

def c9BadRequest : PolicyRequest :=
  { kind := .background_task, agent := some "Bob ", prompt := none,
    requestedTools := none, triggerSource := none }

theorem c9_policy_allow_list_witness :
    (evaluatePolicy (some c9Config) c9BadRequest).allowed = false ∧
    (evaluatePolicy (some c9Config) c9BadRequest).reason =
      some "policy denied request" ∧
    "agent not allowed: bob" ∈
      (evaluatePolicy (some c9Config) c9BadRequest).violations :=
  (c9_policy_allow_list c9Config c9Rule c9BadRequest "bob" (by decide)
    (by decide) (by decide) (by decide) (by decide)).1

/-- C9 counterexample: with a non-empty allow-list `["alice"]` for
background tasks, a request with an absent agent and one with a
whitespace-only agent are both allowed with no violations — the
allow-list is bypassed — while a present non-member agent is denied. -/
theorem c9_policy_allow_list_counterexample :
    evaluatePolicy (some c9Config)
        { kind := .background_task, agent := none, prompt := none,
          requestedTools := none, triggerSource := none } =
      { allowed := true, reason := none, violations := [] } ∧
    evaluatePolicy (some c9Config)
        { kind := .background_task, agent := some "   ", prompt := none,
          requestedTools := none, triggerSource := none } =
      { allowed := true, reason := none, violations := [] } ∧
    (evaluatePolicy (some c9Config) c9BadRequest).allowed = false := by
  decide

/-! ## Loop runtime (`lib/loops/types.ts`, `lib/loops/runtime-state.ts`,
`lib/loops/runtime.ts`)

Modeling notes.  Phase names and statuses are the source's string-literal
unions, kept as `String`.  ISO date strings round-trip through
`Date.parse`, so `lastRunAt`/`updatedAt` are kept as milliseconds
(`Number.isFinite` on a parsed stored timestamp is then always true);
`isoOfMs` is an injective stand-in rendering for `toISOString` where a
string is kept (`nextScheduled`).  The filesystem checkpoint directory is
the map from `normalizeLoopFileName(loopName)` to the parsed checkpoint
(`readCheckpoint`'s JSON-shape validation is the identity on checkpoints
the runtime itself wrote).  `readKernelAwareness(projectRoot)` and
`guardrails.renderForPrompt(name, 5)` are effectful reads, supplied as
the `kernelAwareness` and `guardrailFor` fields; `launch` is the supplied
collaborator, a pure function here.  The local `runtime` state threaded
through `triggerLoop` is dead except for its thrown errors (its value is
never returned or stored), so the `markLoopRuntimeTerminal` results are
bound and dropped, as in the source.  `triggerLoop` is split at the two
source join points into `triggerLoopLaunch` (after the shouldRun gate)
and `triggerLoopTail` (the dry-run/launch join); each stage is a plain
function receiving the accumulated `phases`. -/

def joinSep (sep : String) : List String → String
  | [] => ""
  | [x] => x
  | x :: rest => x ++ sep ++ joinSep sep rest

structure KernelAwareness where
  raw : String
  available : Bool
deriving Repr, DecidableEq

/-- `composeKernelPrompt` (object form, `lib/kernel-awareness.ts`). -/
def composeKernelPrompt (kernelAwareness : Option KernelAwareness)
    (guardrails : Option String) (prompt : String) : String :=
  let awarenessBody := jsTrim ((kernelAwareness.map KernelAwareness.raw).getD "")
  let s1 : List String :=
    if (kernelAwareness.map KernelAwareness.available).getD false &&
        awarenessBody != "" then
      ["## Kernel Awareness\n" ++ awarenessBody]
    else []
  let guardrailsBody := jsTrim (guardrails.getD "")
  let s2 : List String :=
    if guardrailsBody != "" then
      ["## Guardrails (lessons from past runs)\n" ++ guardrailsBody]
    else []
  let sections := s1 ++ s2 ++ ["---", prompt]
  joinSep "\n\n" (sections.filter (fun sec => jsTrim sec ≠ ""))

/-! `JSON.stringify` on the model values, for `renderTemplate`'s non-string
non-number fallback: insertion-order keys, `undefined` entries dropped in
objects and rendered `null` in arrays. -/

mutual

def jsonStringify : JSValue → String
  | .str s => jsonQuote s
  | .num q => ratToString q
  | .bool b => cond b "true" "false"
  | .null => "null"
  | .undef => "undefined"
  | .arr xs => "[" ++ joinSep "," (jsonStringifyList xs) ++ "]"
  | .obj fields => "\x7b" ++ joinSep "," (jsonStringifyFields fields) ++ "\x7d"

def jsonStringifyList : List JSValue → List String
  | [] => []
  | .undef :: rest => "null" :: jsonStringifyList rest
  | v :: rest => jsonStringify v :: jsonStringifyList rest

def jsonStringifyFields : List (String × JSValue) → List String
  | [] => []
  | (_, .undef) :: rest => jsonStringifyFields rest
  | (k, v) :: rest =>
    (jsonQuote k ++ ":" ++ jsonStringify v) :: jsonStringifyFields rest

end

/-- One `{key}` replacement of `renderTemplate`: the trimmed key resolved
against the context by the same reduce as `resolvePath`; `undefined` and
`null` keep the original `{…}` text. -/
def renderTemplateValue (context : List (String × JSValue))
    (body : List Char) : String :=
  let key := jsTrim (String.mk body)
  if key = "" then "\x7b" ++ String.mk body ++ "\x7d"
  else
    match (splitDotAux key.data []).foldl resolveStep (.obj context) with
    | .undef => "\x7b" ++ String.mk body ++ "\x7d"
    | .null => "\x7b" ++ String.mk body ++ "\x7d"
    | .str s => s
    | .num q => ratToString q
    | .bool b => cond b "true" "false"
    | v => jsonStringify v

/-- `template.replace(/\x7b([^\x7b\x7d]+)\x7d/g, …)`: a scan that, at each
opening brace followed by one or more non-brace characters and a closing
brace, substitutes the resolved value, and otherwise copies the character.
Fuel is the remaining length (each step consumes at least one char). -/
def renderTemplateAux (context : List (String × JSValue)) :
    Nat → List Char → String
  | 0, _ => ""
  | _ + 1, [] => ""
  | fuel + 1, c :: rest =>
    if c = '\x7b' then
      let body := rest.takeWhile (fun ch => ch ≠ '\x7b' ∧ ch ≠ '\x7d')
      match rest.drop body.length with
      | '\x7d' :: after =>
        if body.isEmpty then
          String.mk [c] ++ renderTemplateAux context fuel rest
        else
          renderTemplateValue context body ++
            renderTemplateAux context fuel after
      | _ => String.mk [c] ++ renderTemplateAux context fuel rest
    else String.mk [c] ++ renderTemplateAux context fuel rest

def renderTemplate (template : String)
    (context : List (String × JSValue)) : String :=
  renderTemplateAux context (template.data.length + 1) template.data

structure LoopTriggerDefinition where
  type : String
  schedule : Option String
  event : Option String
  source : Option String
deriving Repr, DecidableEq

structure LoopBudget where
  maxTokens : Option Rat
  maxCostUsd : Option Rat
  maxDurationSec : Option Rat
deriving Repr, DecidableEq

/-- `LoopEval`; the `type` field is the fixed literal `"exit_code"`. -/
structure LoopEval where
  passCondition : Rat
  blocking : Bool
deriving Repr, DecidableEq

structure LoopDefinition where
  name : String
  version : Nat
  description : String
  trigger : LoopTriggerDefinition
  agent : String
  backend : String
  timeoutSec : Nat
  maxConcurrent : Nat
  cooldownSec : Nat
  maxRetries : Nat
  inputs : List (String × JSValue)
  budget : LoopBudget
  eval : LoopEval
  shouldRun : Option String
  promptTemplate : String
  filePath : String
  updatedAt : Nat

structure LoopPhaseEvent where
  name : String
  status : String
  detail : Option String
deriving Repr, DecidableEq

structure LoopTriggerRequest where
  loopName : String
  cwd : String
  triggerType : Option String
  triggerSource : Option String
  payload : Option (List (String × JSValue))
  dryRun : Option Bool

structure LoopTriggerResult where
  loopName : String
  status : String
  reason : Option String
  runId : Option String
  backgroundTaskId : Option String
  phases : List LoopPhaseEvent
  nextScheduled : Option String
deriving Repr, DecidableEq

structure LoopCheckpoint where
  loopName : String
  updatedAt : Nat
  lastRunAt : Option Nat
  lastRunId : Option String
  lastStatus : String
  nextScheduled : Option String
  lastResult : Option LoopTriggerResult
deriving Repr, DecidableEq

def LOOP_PHASE_ORDER : List String :=
  ["trigger", "shouldRun", "context", "execute", "evaluate", "learn",
   "handoff", "retrigger"]

def phaseIndexAux (p : String) : List String → Nat → Option Nat
  | [], _ => none
  | x :: rest, i => if x = p then some i else phaseIndexAux p rest (i + 1)

/-- `PHASE_INDEX.get(p)`. -/
def phaseIndex (p : String) : Option Nat :=
  phaseIndexAux p LOOP_PHASE_ORDER 0

structure LoopRuntimeState where
  loopName : String
  runId : String
  phase : String
  seq : Nat
  updatedAt : Nat
  terminal : Bool
  terminalStatus : Option String
deriving Repr, DecidableEq

def requireNonEmpty (value label : String) : Except String String :=
  let normalized := jsTrim value
  if normalized = "" then .error (label ++ " is required") else .ok normalized

def initializeLoopRuntimeState (nowMs : Nat) (loopName runId : String) :
    Except String LoopRuntimeState :=
  match requireNonEmpty loopName "loopName" with
  | .error e => .error e
  | .ok ln =>
    match requireNonEmpty runId "runId" with
    | .error e => .error e
    | .ok rid =>
      .ok { loopName := ln, runId := rid, phase := "trigger", seq := 1,
            updatedAt := nowMs, terminal := false, terminalStatus := none }

def advanceLoopRuntimeState (nowMs : Nat) (state : LoopRuntimeState)
    (phase : String) : Except String LoopRuntimeState :=
  if state.terminal then
    .error ("cannot advance phase for terminal loop state (" ++
      state.terminalStatus.getD "unknown" ++ ")")
  else
    match phaseIndex state.phase, phaseIndex phase with
    | some currentIndex, some nextIndex =>
      if nextIndex ≠ currentIndex + 1 then
        .error ("invalid phase transition " ++ state.phase ++ " -> " ++ phase)
      else
        .ok { state with
              phase := phase
              seq := state.seq + 1
              updatedAt := nowMs }
    | _, _ => .error "invalid phase transition"

def markLoopRuntimeTerminal (nowMs : Nat) (state : LoopRuntimeState)
    (status : String) : LoopRuntimeState :=
  { state with
    terminal := true
    terminalStatus := some status
    seq := state.seq + 1
    updatedAt := nowMs }

def normalizeLoopFileName (name : String) : String :=
  String.mk ((jsToLower (jsTrim name)).data.map (fun c =>
    if c.isLower ∨ c.isDigit ∨ c = '.' ∨ c = '_' ∨ c = '-' then c else '-'))

def coerceTriggerType (loop : LoopDefinition)
    (requested : Option String) : String :=
  match requested with
  | some r => if r = "manual" ∨ r = "cron" ∨ r = "event" then r
    else loop.trigger.type
  | none => loop.trigger.type

/-- Injective stand-in for `new Date(ms).toISOString()`. -/
def isoOfMs (ms : Nat) : String :=
  "iso:" ++ toString ms

def nextScheduledFor (loop : LoopDefinition) (runAt : Nat) : Option String :=
  if loop.trigger.type ≠ "cron" then none
  else if 0 < loop.cooldownSec then
    some (isoOfMs (runAt + loop.cooldownSec * 1000))
  else if optionStrTruthy loop.trigger.schedule then
    some ("cron:" ++ loop.trigger.schedule.getD "")
  else none

def makeIdempotencyKey (digest : String → String) (loopName triggerType : String)
    (triggerSource : Option String)
    (payload : Option (List (String × JSValue))) : String :=
  let payloadHash := sha256Hex digest (.obj (payload.getD []))
  joinSep "|"
    ["loop:" ++ loopName, "type:" ++ triggerType,
     "source:" ++ triggerSource.getD "manual", "payload:" ++ payloadHash]

structure LaunchInput where
  agent : String
  description : String
  prompt : String
  promptComposed : Option Bool
  cwd : String
  timeoutSec : Nat
  domain : Option String
deriving Repr, DecidableEq

structure LaunchResult where
  taskId : Option String
  error : Option String
deriving Repr, DecidableEq

structure LoopRuntime where
  projectRoot : String
  checkpointsDir : String
  idempotency : IdempotencyLedger
  guardrailFor : String → String
  launch : LaunchInput → LaunchResult
  policyConfig : Option PolicyConfig
  idempotencyTtlSec : Nat
  loops : List (String × LoopDefinition)
  kernelAwareness : KernelAwareness
  checkpoints : List (String × LoopCheckpoint)
  nextId : Nat

def readCheckpoint (rt : LoopRuntime) (loopName : String) :
    Option LoopCheckpoint :=
  mapGet rt.checkpoints (normalizeLoopFileName loopName)

def writeCheckpoint (rt : LoopRuntime) (cp : LoopCheckpoint) : LoopRuntime :=
  { rt with checkpoints :=
      mapSet rt.checkpoints (normalizeLoopFileName cp.loopName) cp }

def checkpointFromResult (nowMs : Nat) (loopName : String)
    (result : LoopTriggerResult) (runAt : Nat) : LoopCheckpoint :=
  { loopName := loopName, updatedAt := nowMs, lastRunAt := some runAt,
    lastRunId := result.runId, lastStatus := result.status,
    nextScheduled := result.nextScheduled, lastResult := some result }

/-- The `loop.cooldownSec > 0 && checkpoint?.lastRunAt` guard and the inner
parsed-timestamp window check combined (a stored timestamp is always finite
in the model; a missing checkpoint or `lastRunAt` falls through either
way). -/
def cooldownActive (checkpoint : Option LoopCheckpoint)
    (loop : LoopDefinition) (runAt : Nat) : Bool :=
  match checkpoint.bind LoopCheckpoint.lastRunAt with
  | some lastRunMs =>
    decide (0 < loop.cooldownSec) &&
      decide (runAt - lastRunMs < loop.cooldownSec * 1000)
  | none => false

def shouldRunContext (loop : LoopDefinition) (request : LoopTriggerRequest)
    (triggerType triggerSource : String) : List (String × JSValue) :=
  [("inputs", .obj loop.inputs),
   ("payload", .obj (request.payload.getD [])),
   ("state", .obj [("triggerType", .str triggerType),
     ("triggerSource", .str triggerSource)])]

/-- `{ ...loop.inputs, payload: …, trigger: … }`: spread then explicit keys
(overriding in place when the key exists, appending otherwise). -/
def triggerContext (loop : LoopDefinition) (request : LoopTriggerRequest)
    (triggerType triggerSource : String) : List (String × JSValue) :=
  mapSet (mapSet loop.inputs "payload" (.obj (request.payload.getD [])))
    "trigger" (.obj [("type", .str triggerType),
      ("source", .str triggerSource)])

def promptFor (rt : LoopRuntime) (loop : LoopDefinition)
    (request : LoopTriggerRequest) (triggerType triggerSource : String) :
    String :=
  composeKernelPrompt (some rt.kernelAwareness)
    (some (rt.guardrailFor loop.name))
    (renderTemplate loop.promptTemplate
      (triggerContext loop request triggerType triggerSource))

def policyRequestFor (loop : LoopDefinition) (prompt triggerSource : String) :
    PolicyRequest :=
  { kind := .loop_trigger, agent := some loop.agent, prompt := some prompt,
    requestedTools := none, triggerSource := some triggerSource }

def launchInputFor (loop : LoopDefinition) (request : LoopTriggerRequest)
    (prompt : String) : LaunchInput :=
  { agent := loop.agent, description := "loop:" ++ loop.name,
    prompt := prompt, promptComposed := some true, cwd := request.cwd,
    timeoutSec := loop.timeoutSec, domain := some loop.name }

def optStrToJS : Option String → JSValue
  | some s => .str s
  | none => JSValue.undef

/-- The tail of `triggerLoop` after the dry-run/launch join: the
evaluate/learn/handoff/retrigger phases and the final result. -/
def triggerLoopTail (digest : String → String) (rt2 : LoopRuntime)
    (nowMs runAt : Nat) (loop : LoopDefinition) (runId prompt : String)
    (runtime3 : LoopRuntimeState) (phases4 : List LoopPhaseEvent)
    (backgroundTaskId : Option String) (status : String) :
    Except String (LoopTriggerResult × LoopRuntime) :=
  match advanceLoopRuntimeState nowMs runtime3 "evaluate" with
  | .error e => .error e
  | .ok runtime4 =>
    let phases5 := phases4 ++ [LoopPhaseEvent.mk "evaluate" "deferred"
      (some "evaluation occurs after task completion")]
    match advanceLoopRuntimeState nowMs runtime4 "learn" with
    | .error e => .error e
    | .ok runtime5 =>
      let phases6 := phases5 ++ [LoopPhaseEvent.mk "learn" "deferred"
        (some "learning occurs after evaluation")]
      match advanceLoopRuntimeState nowMs runtime5 "handoff" with
      | .error e => .error e
      | .ok runtime6 =>
        let handoffHash := sha256Hex digest (.obj
          [("loop", .str loop.name), ("runId", .str runId),
           ("backgroundTaskId", optStrToJS backgroundTaskId),
           ("prompt", .str prompt)])
        let phases7 := phases6 ++ [LoopPhaseEvent.mk "handoff" "ok"
          (some ("freshness=" ++ String.mk (handoffHash.data.take 12)))]
        match advanceLoopRuntimeState nowMs runtime6 "retrigger" with
        | .error e => .error e
        | .ok runtime7 =>
          let nextScheduled := nextScheduledFor loop runAt
          let phases8 := phases7 ++ [LoopPhaseEvent.mk "retrigger" "deferred"
            (some (match nextScheduled with
              | some ns => "next " ++ ns
              | none => "manual trigger"))]
          let _runtime8 := markLoopRuntimeTerminal nowMs runtime7 status
          let result : LoopTriggerResult :=
            { loopName := loop.name, status := status, reason := none,
              runId := some runId, backgroundTaskId := backgroundTaskId,
              phases := phases8, nextScheduled := nextScheduled }
          .ok (result,
            writeCheckpoint rt2 (checkpointFromResult nowMs loop.name result runAt))

/-- `triggerLoop` from the `context` phase on (after the shouldRun gate). -/
def triggerLoopLaunch (digest : String → String) (rt1 : LoopRuntime)
    (nowMs runAt : Nat) (request : LoopTriggerRequest)
    (loop : LoopDefinition) (triggerType triggerSource runId : String)
    (runtime1 : LoopRuntimeState) (phases2 : List LoopPhaseEvent) :
    Except String (LoopTriggerResult × LoopRuntime) :=
  match advanceLoopRuntimeState nowMs runtime1 "context" with
  | .error e => .error e
  | .ok runtime2 =>
    let prompt := promptFor rt1 loop request triggerType triggerSource
    let phases3 := phases2 ++ [LoopPhaseEvent.mk "context" "ok"
      (some ("promptChars=" ++ toString prompt.length))]
    match advanceLoopRuntimeState nowMs runtime2 "execute" with
    | .error e => .error e
    | .ok runtime3 =>
      let policy := evaluatePolicy rt1.policyConfig
        (policyRequestFor loop prompt triggerSource)
      if policy.allowed = false then
        let phases4 := phases3 ++ [LoopPhaseEvent.mk "execute" "error"
          (some (joinSep "; " policy.violations))]
        let _runtime4 := markLoopRuntimeTerminal nowMs runtime3 "error"
        let result : LoopTriggerResult :=
          { loopName := loop.name, status := "error",
            reason := some (policy.reason.getD "policy denied"),
            runId := some runId, backgroundTaskId := none,
            phases := phases4, nextScheduled := nextScheduledFor loop runAt }
        .ok (result,
          writeCheckpoint rt1 (checkpointFromResult nowMs loop.name result runAt))
      else
        let key := makeIdempotencyKey digest loop.name triggerType
          triggerSource request.payload
        match rt1.idempotency.checkAndRecord nowMs key rt1.idempotencyTtlSec with
        | .error e => .error e
        | .ok ir =>
          let rt2 : LoopRuntime := { rt1 with idempotency := ir.2 }
          if ir.1.duplicate then
            let phases4 := phases3 ++ [LoopPhaseEvent.mk "execute" "skipped"
              (some "duplicate trigger")]
            let _runtime4 := markLoopRuntimeTerminal nowMs runtime3 "duplicate"
            let result : LoopTriggerResult :=
              { loopName := loop.name, status := "duplicate",
                reason := some "duplicate trigger", runId := some runId,
                backgroundTaskId := none, phases := phases4,
                nextScheduled := nextScheduledFor loop runAt }
            .ok (result,
              writeCheckpoint rt2 (checkpointFromResult nowMs loop.name result runAt))
          else
            if request.dryRun.getD false then
              triggerLoopTail digest rt2 nowMs runAt loop runId prompt runtime3
                (phases3 ++ [LoopPhaseEvent.mk "execute" "ok"
                  (some "dry-run prepared")])
                none "prepared"
            else
              let launched := rt2.launch (launchInputFor loop request prompt)
              if optionStrTruthy launched.taskId = false then
                let phases4 := phases3 ++ [LoopPhaseEvent.mk "execute" "error"
                  (some (launched.error.getD "launch failed"))]
                let _runtime4 := markLoopRuntimeTerminal nowMs runtime3 "error"
                let result : LoopTriggerResult :=
                  { loopName := loop.name, status := "error",
                    reason := some (launched.error.getD "launch failed"),
                    runId := some runId, backgroundTaskId := none,
                    phases := phases4,
                    nextScheduled := nextScheduledFor loop runAt }
                .ok (result,
                  writeCheckpoint rt2
                    (checkpointFromResult nowMs loop.name result runAt))
              else
                triggerLoopTail digest rt2 nowMs runAt loop runId prompt
                  runtime3
                  (phases3 ++ [LoopPhaseEvent.mk "execute" "ok"
                    (some ("background task " ++ launched.taskId.getD ""))])
                  launched.taskId "launched"

def triggerLoop (digest : String → String) (rt : LoopRuntime) (nowMs : Nat)
    (request : LoopTriggerRequest) :
    Except String (LoopTriggerResult × LoopRuntime) :=
  match mapGet rt.loops request.loopName with
  | none =>
    .ok ({ loopName := request.loopName, status := "error",
           reason := some ("loop not found: " ++ request.loopName),
           runId := none, backgroundTaskId := none, phases := [],
           nextScheduled := none }, rt)
  | some loop =>
    let runAt := nowMs
    let triggerType := coerceTriggerType loop request.triggerType
    let triggerSource := request.triggerSource.getD "manual"
    let runId := createId "run" rt.nextId
    let rt1 : LoopRuntime := { rt with nextId := rt.nextId + 1 }
    match initializeLoopRuntimeState nowMs loop.name runId with
    | .error e => .error e
    | .ok runtime0 =>
      let phases1 := [LoopPhaseEvent.mk "trigger" "ok"
        (some (triggerType ++ ":" ++ triggerSource))]
      if cooldownActive (readCheckpoint rt1 loop.name) loop runAt then
        match advanceLoopRuntimeState nowMs runtime0 "shouldRun" with
        | .error e => .error e
        | .ok runtime1 =>
          let phases2 := phases1 ++ [LoopPhaseEvent.mk "shouldRun" "skipped"
            (some ("cooldown active (" ++ toString loop.cooldownSec ++ "s)"))]
          let _runtime2 := markLoopRuntimeTerminal nowMs runtime1 "skipped"
          let result : LoopTriggerResult :=
            { loopName := loop.name, status := "skipped",
              reason := some "cooldown active", runId := some runId,
              backgroundTaskId := none, phases := phases2,
              nextScheduled := nextScheduledFor loop runAt }
          .ok (result,
            writeCheckpoint rt1 (checkpointFromResult nowMs loop.name result runAt))
      else
        match advanceLoopRuntimeState nowMs runtime0 "shouldRun" with
        | .error e => .error e
        | .ok runtime1 =>
          if optionStrTruthy loop.shouldRun then
            let sr := ConditionEngine.evaluate (loop.shouldRun.getD "")
              (shouldRunContext loop request triggerType triggerSource)
            if sr.passed = false then
              let phases2 := phases1 ++
                [LoopPhaseEvent.mk "shouldRun" "skipped" (some sr.reason)]
              let _runtime2 := markLoopRuntimeTerminal nowMs runtime1 "skipped"
              let result : LoopTriggerResult :=
                { loopName := loop.name, status := "skipped",
                  reason := some sr.reason, runId := some runId,
                  backgroundTaskId := none, phases := phases2,
                  nextScheduled := nextScheduledFor loop runAt }
              .ok (result,
                writeCheckpoint rt1
                  (checkpointFromResult nowMs loop.name result runAt))
            else
              triggerLoopLaunch digest rt1 nowMs runAt request loop
                triggerType triggerSource runId runtime1
                (phases1 ++ [LoopPhaseEvent.mk "shouldRun" "ok"
                  (some "condition passed")])
          else
            triggerLoopLaunch digest rt1 nowMs runAt request loop
              triggerType triggerSource runId runtime1
              (phases1 ++ [LoopPhaseEvent.mk "shouldRun" "ok"
                (some "no condition configured")])

/-! ## Lemmas for the loop runtime -/

theorem createId_run_data (n : Nat) :
    (createId "run" n).data = "run_".data ++ List.replicate n 'x' := by
  simp [createId, String.data_append]

theorem createId_run_no_space (n : Nat) :
    ∀ c ∈ (createId "run" n).data, jsIsSpaceChar c = false := by
  intro c hc
  rw [createId_run_data] at hc
  rcases List.mem_append.1 hc with h | h
  · rw [show "run_".data = ['r', 'u', 'n', '_'] from by decide] at h
    simp only [List.mem_cons, List.not_mem_nil, or_false] at h
    rcases h with rfl | rfl | rfl | rfl <;> decide
  · rw [List.eq_of_mem_replicate h]
    decide

theorem jsTrim_createId_run (n : Nat) :
    jsTrim (createId "run" n) = createId "run" n :=
  jsTrim_eq_self_of_no_space (createId_run_no_space n)

theorem createId_run_ne_empty (n : Nat) : createId "run" n ≠ "" := by
  intro h
  have := congrArg String.data h
  rw [createId_run_data] at this
  simp at this

theorem jsTrim_createId_run_ne (n : Nat) : jsTrim (createId "run" n) ≠ "" := by
  rw [jsTrim_createId_run]
  exact createId_run_ne_empty n

theorem initializeLoopRuntimeState_ok (nowMs : Nat) (loopName runId : String)
    (h1 : jsTrim loopName ≠ "") (h2 : jsTrim runId ≠ "") :
    initializeLoopRuntimeState nowMs loopName runId =
      .ok ⟨jsTrim loopName, jsTrim runId, "trigger", 1, nowMs, false, none⟩ := by
  simp [initializeLoopRuntimeState, requireNonEmpty, h1, h2]

theorem data_head_append {a : String} {c : Char} {r : List Char}
    (h : a.data = c :: r) (b : String) :
    (a ++ b).data = c :: (r ++ b.data) := by
  rw [String.data_append, h, List.cons_append]

theorem jsTrim_makeKey_ne (digest : String → String) (a b : String)
    (c : Option String) (d : Option (List (String × JSValue))) :
    jsTrim (makeIdempotencyKey digest a b c d) ≠ "" := by
  have he : makeIdempotencyKey digest a b c d =
      ("loop:" ++ a) ++ "|" ++
        ("type:" ++ b ++ "|" ++
          ("source:" ++ c.getD "manual" ++ "|" ++
            ("payload:" ++ sha256Hex digest (JSValue.obj (d.getD []))))) := rfl
  have h1 : ("loop:" ++ a).data = 'l' :: ("oop:".data ++ a.data) :=
    data_head_append rfl a
  have h2 := data_head_append h1 "|"
  have h3 := data_head_append h2
    ("type:" ++ b ++ "|" ++
      ("source:" ++ c.getD "manual" ++ "|" ++
        ("payload:" ++ sha256Hex digest (JSValue.obj (d.getD [])))))
  rw [he]
  exact jsTrim_ne_empty_of_head h3 (by decide)

theorem advance_trigger_shouldRun (nowMs : Nat) (ln rid : String) (s u : Nat)
    (ts : Option String) :
    advanceLoopRuntimeState nowMs ⟨ln, rid, "trigger", s, u, false, ts⟩
      "shouldRun" = .ok ⟨ln, rid, "shouldRun", s + 1, nowMs, false, ts⟩ := rfl

theorem advance_shouldRun_context (nowMs : Nat) (ln rid : String) (s u : Nat)
    (ts : Option String) :
    advanceLoopRuntimeState nowMs ⟨ln, rid, "shouldRun", s, u, false, ts⟩
      "context" = .ok ⟨ln, rid, "context", s + 1, nowMs, false, ts⟩ := rfl

theorem advance_context_execute (nowMs : Nat) (ln rid : String) (s u : Nat)
    (ts : Option String) :
    advanceLoopRuntimeState nowMs ⟨ln, rid, "context", s, u, false, ts⟩
      "execute" = .ok ⟨ln, rid, "execute", s + 1, nowMs, false, ts⟩ := rfl

theorem advance_execute_evaluate (nowMs : Nat) (ln rid : String) (s u : Nat)
    (ts : Option String) :
    advanceLoopRuntimeState nowMs ⟨ln, rid, "execute", s, u, false, ts⟩
      "evaluate" = .ok ⟨ln, rid, "evaluate", s + 1, nowMs, false, ts⟩ := rfl

theorem advance_evaluate_learn (nowMs : Nat) (ln rid : String) (s u : Nat)
    (ts : Option String) :
    advanceLoopRuntimeState nowMs ⟨ln, rid, "evaluate", s, u, false, ts⟩
      "learn" = .ok ⟨ln, rid, "learn", s + 1, nowMs, false, ts⟩ := rfl

theorem advance_learn_handoff (nowMs : Nat) (ln rid : String) (s u : Nat)
    (ts : Option String) :
    advanceLoopRuntimeState nowMs ⟨ln, rid, "learn", s, u, false, ts⟩
      "handoff" = .ok ⟨ln, rid, "handoff", s + 1, nowMs, false, ts⟩ := rfl

theorem advance_handoff_retrigger (nowMs : Nat) (ln rid : String) (s u : Nat)
    (ts : Option String) :
    advanceLoopRuntimeState nowMs ⟨ln, rid, "handoff", s, u, false, ts⟩
      "retrigger" = .ok ⟨ln, rid, "retrigger", s + 1, nowMs, false, ts⟩ := rfl

/-- C6: for a known loop and a non-dry-run trigger that passes every gate —
no active cooldown, shouldRun absent or passing, policy allowing,
non-duplicate idempotency, and a launch that returns a task id — the run
launches with exactly the 8 phases in order
trigger, shouldRun, context, execute, evaluate, learn, handoff, retrigger,
with evaluate, learn and retrigger deferred (and the rest ok). -/
theorem c6_loop_runtime_phases (digest : String → String) (rt : LoopRuntime)
    (nowMs : Nat) (request : LoopTriggerRequest) (loop : LoopDefinition)
    (hloop : mapGet rt.loops request.loopName = some loop)
    (hname : jsTrim loop.name ≠ "")
    (hdry : request.dryRun.getD false = false)
    (hcool : cooldownActive (readCheckpoint rt loop.name) loop nowMs = false)
    (hsr : optionStrTruthy loop.shouldRun = false ∨
      (ConditionEngine.evaluate (loop.shouldRun.getD "")
        (shouldRunContext loop request
          (coerceTriggerType loop request.triggerType)
          (request.triggerSource.getD "manual"))).passed = true)
    (hpol : (evaluatePolicy rt.policyConfig (policyRequestFor loop
        (promptFor rt loop request (coerceTriggerType loop request.triggerType)
          (request.triggerSource.getD "manual"))
        (request.triggerSource.getD "manual"))).allowed = true)
    (hdup : (rt.idempotency.check nowMs (makeIdempotencyKey digest loop.name
        (coerceTriggerType loop request.triggerType)
        (request.triggerSource.getD "manual") request.payload)).duplicate =
      false)
    (hlaunch : optionStrTruthy (rt.launch (launchInputFor loop request
        (promptFor rt loop request (coerceTriggerType loop request.triggerType)
          (request.triggerSource.getD "manual")))).taskId = true) :
    (triggerLoop digest rt nowMs request).toOption.map
        (fun p => (p.1.status, p.1.phases.map (fun e => (e.name, e.status)))) =
      some ("launched",
        [("trigger", "ok"), ("shouldRun", "ok"), ("context", "ok"),
         ("execute", "ok"), ("evaluate", "deferred"), ("learn", "deferred"),
         ("handoff", "ok"), ("retrigger", "deferred")]) := by
  have hinit := initializeLoopRuntimeState_ok nowMs loop.name
    (createId "run" rt.nextId) hname (jsTrim_createId_run_ne rt.nextId)
  have hkey := jsTrim_makeKey_ne digest loop.name
    (coerceTriggerType loop request.triggerType)
    (some (request.triggerSource.getD "manual")) request.payload
  simp only [readCheckpoint] at hcool
  simp only [promptFor] at hpol hlaunch
  rcases hsr with hsrF | hsrT
  · simp [triggerLoop, hloop, hinit, readCheckpoint, hcool, hsrF,
      triggerLoopLaunch, promptFor, hpol, IdempotencyLedger.checkAndRecord,
      IdempotencyLedger.record, hdup, hkey, hdry, hlaunch, triggerLoopTail,
      advance_trigger_shouldRun, advance_shouldRun_context,
      advance_context_execute, advance_execute_evaluate,
      advance_evaluate_learn, advance_learn_handoff,
      advance_handoff_retrigger, Except.toOption]
  · cases hopt : optionStrTruthy loop.shouldRun with
    | false =>
      simp [triggerLoop, hloop, hinit, readCheckpoint, hcool, hopt,
        triggerLoopLaunch, promptFor, hpol, IdempotencyLedger.checkAndRecord,
        IdempotencyLedger.record, hdup, hkey, hdry, hlaunch, triggerLoopTail,
        advance_trigger_shouldRun, advance_shouldRun_context,
        advance_context_execute, advance_execute_evaluate,
        advance_evaluate_learn, advance_learn_handoff,
        advance_handoff_retrigger, Except.toOption]
    | true =>
      simp [triggerLoop, hloop, hinit, readCheckpoint, hcool, hopt, hsrT,
        triggerLoopLaunch, promptFor, hpol, IdempotencyLedger.checkAndRecord,
        IdempotencyLedger.record, hdup, hkey, hdry, hlaunch, triggerLoopTail,
        advance_trigger_shouldRun, advance_shouldRun_context,
        advance_context_execute, advance_execute_evaluate,
        advance_evaluate_learn, advance_learn_handoff,
        advance_handoff_retrigger, Except.toOption]

/-- C7 (corrected): the unknown-loop path returns the error result without
writing any checkpoint (see `c7_loop_checkpoint_counterexample`), so the
claim's "on every return path" is false.  Amended to requests naming a
known loop: every normal return (every path that is not a thrown error)
leaves the checkpoint for that loop equal to `checkpointFromResult` of the
returned result, so the stored checkpoint reflects the most recent attempt
(`lastStatus` is the result's status and `lastResult` the full result). -/
theorem triggerLoopTail_checkpoint {digest : String → String}
    {rt2 : LoopRuntime} {nowMs runAt : Nat} {loop : LoopDefinition}
    {runId prompt : String} {runtime3 : LoopRuntimeState}
    {phases4 : List LoopPhaseEvent} {bid : Option String} {status : String}
    {result : LoopTriggerResult} {rtOut : LoopRuntime}
    (hok : triggerLoopTail digest rt2 nowMs runAt loop runId prompt runtime3
      phases4 bid status = .ok (result, rtOut)) :
    readCheckpoint rtOut loop.name =
      some (checkpointFromResult nowMs loop.name result runAt) := by
  simp only [triggerLoopTail] at hok
  repeat' split at hok
  all_goals
    first
      | (injection hok with h2
         injection h2 with ha hb
         subst ha
         subst hb
         rw [readCheckpoint, writeCheckpoint]
         exact mapGet_set_self _ _ _)
      | cases hok

theorem triggerLoopLaunch_checkpoint {digest : String → String}
    {rt1 : LoopRuntime} {nowMs runAt : Nat} {request : LoopTriggerRequest}
    {loop : LoopDefinition} {triggerType triggerSource runId : String}
    {runtime1 : LoopRuntimeState} {phases2 : List LoopPhaseEvent}
    {result : LoopTriggerResult} {rtOut : LoopRuntime}
    (hok : triggerLoopLaunch digest rt1 nowMs runAt request loop triggerType
      triggerSource runId runtime1 phases2 = .ok (result, rtOut)) :
    readCheckpoint rtOut loop.name =
      some (checkpointFromResult nowMs loop.name result runAt) := by
  simp only [triggerLoopLaunch] at hok
  repeat' split at hok
  all_goals
    first
      | exact triggerLoopTail_checkpoint hok
      | (injection hok with h2
         injection h2 with ha hb
         subst ha
         subst hb
         rw [readCheckpoint, writeCheckpoint]
         exact mapGet_set_self _ _ _)
      | cases hok

/-- C7 (corrected): the unknown-loop path returns the error result without
writing any checkpoint (see `c7_loop_checkpoint_counterexample`), so the
claim's "on every return path" is false.  Amended to requests naming a
known loop: every normal return (every path that is not a thrown error)
leaves the checkpoint for that loop equal to `checkpointFromResult` of the
returned result, so the stored checkpoint reflects the most recent attempt
(`lastStatus` is the result's status and `lastResult` the full result). -/
theorem c7_loop_checkpoint (digest : String → String) (rt : LoopRuntime)
    (nowMs : Nat) (request : LoopTriggerRequest) (loop : LoopDefinition)
    (hloop : mapGet rt.loops request.loopName = some loop)
    (result : LoopTriggerResult) (rt2 : LoopRuntime)
    (hok : triggerLoop digest rt nowMs request = .ok (result, rt2)) :
    readCheckpoint rt2 loop.name =
      some (checkpointFromResult nowMs loop.name result nowMs) ∧
    (checkpointFromResult nowMs loop.name result nowMs).lastStatus =
      result.status ∧
    (checkpointFromResult nowMs loop.name result nowMs).lastResult =
      some result := by
  refine ⟨?_, rfl, rfl⟩
  simp only [triggerLoop] at hok
  split at hok
  · next h => rw [hloop] at h; cases h
  · next loopX h =>
    rw [hloop] at h
    injection h with h
    subst h
    repeat' split at hok
    all_goals
      first
        | exact triggerLoopLaunch_checkpoint hok
        | (injection hok with h2
           injection h2 with ha hb
           subst ha
           subst hb
           rw [readCheckpoint, writeCheckpoint]
           exact mapGet_set_self _ _ _)
        | cases hok

def c6Loop : LoopDefinition where
  name := "l1"
  version := 1
  description := ""
  trigger := { type := "manual", schedule := none, event := none, source := none }
  agent := "dev"
  backend := "pi"
  timeoutSec := 600
  maxConcurrent := 1
  cooldownSec := 0
  maxRetries := 0
  inputs := []
  budget := { maxTokens := none, maxCostUsd := none, maxDurationSec := none }
  eval := { passCondition := 0, blocking := true }
  shouldRun := none
  promptTemplate := "do it"
  filePath := ""
  updatedAt := 0

def c6Runtime : LoopRuntime :=
  { projectRoot := "/p", checkpointsDir := "/c",
    idempotency := mkIdempotencyLedger 600,
    guardrailFor := fun _ => "",
    launch := fun _ => { taskId := some "task-1", error := none },
    policyConfig := none, idempotencyTtlSec := 600,
    loops := [("l1", c6Loop)],
    kernelAwareness := { raw := "", available := false },
    checkpoints := [], nextId := 0 }

def c6Request : LoopTriggerRequest :=
  { loopName := "l1", cwd := "/w", triggerType := none, triggerSource := none,
    payload := none, dryRun := none }

theorem c6_loop_runtime_phases_witness :
    (triggerLoop (fun s => s) c6Runtime 0 c6Request).toOption.map
        (fun p => (p.1.status, p.1.phases.map (fun e => (e.name, e.status)))) =
      some ("launched",
        [("trigger", "ok"), ("shouldRun", "ok"), ("context", "ok"),
         ("execute", "ok"), ("evaluate", "deferred"), ("learn", "deferred"),
         ("handoff", "ok"), ("retrigger", "deferred")]) :=
  c6_loop_runtime_phases (fun s => s) c6Runtime 0 c6Request c6Loop rfl
    (by decide) rfl rfl (Or.inl rfl) rfl rfl rfl

def c7Loop : LoopDefinition :=
  { c6Loop with name := "l2", shouldRun := some "false" }

def c7Runtime : LoopRuntime :=
  { c6Runtime with loops := [("l2", c7Loop)] }

def c7Request : LoopTriggerRequest :=
  { c6Request with loopName := "l2" }

def c7Pair : LoopTriggerResult × LoopRuntime :=
  (triggerLoop (fun s => s) c7Runtime 0 c7Request).toOption.getD
    ({ loopName := "", status := "", reason := none, runId := none,
       backgroundTaskId := none, phases := [], nextScheduled := none },
     c7Runtime)

theorem c7_loop_checkpoint_witness :
    readCheckpoint c7Pair.2 c7Loop.name =
      some (checkpointFromResult 0 c7Loop.name c7Pair.1 0) ∧
    (checkpointFromResult 0 c7Loop.name c7Pair.1 0).lastStatus =
      c7Pair.1.status := by
  have h := c7_loop_checkpoint (fun s => s) c7Runtime 0 c7Request c7Loop rfl
    c7Pair.1 c7Pair.2 rfl
  exact ⟨h.1, h.2.1⟩

/-- C7 counterexample: triggering an unknown loop name returns the error
result with no phases and writes no checkpoint at all — the runtime comes
back unchanged with its (empty) checkpoint store intact, so the persisted
state does not reflect this most recent attempt. -/
theorem c7_loop_checkpoint_counterexample :
    triggerLoop (fun s => s) c6Runtime 0
        { loopName := "nope", cwd := "/w", triggerType := none,
          triggerSource := none, payload := none, dryRun := none } =
      .ok ({ loopName := "nope", status := "error",
             reason := some "loop not found: nope", runId := none,
             backgroundTaskId := none, phases := [], nextScheduled := none },
           c6Runtime) ∧
    c6Runtime.checkpoints = [] :=
  ⟨rfl, rfl⟩

end Creampi
